import Mathlib

/-!
Verification development for the `local_lifesmart` Home Assistant integration
(`custom_components/local_lifesmart`).  The Python source is shallowly embedded:
bytes are `List Nat` (each element a byte value), Python `dict`s coming from
JSON are association lists with last-wins lookup, fallible code returns
`Option`/`Except`, and the stateful client is modelled by explicit state
passing.  Definitions are transcribed from the source files
(`api.py`, `coordinator.py`, `remote.py`, `const.py`).
-/

namespace LifeSmart

/-! ## UTF-8 codec

`str.encode()` / `bytes.decode('utf-8')` from the Python source are modelled by
an explicit UTF-8 encoder/decoder over byte lists. -/

/-- UTF-8 encoding of a single Unicode code point (1 to 4 bytes). -/
def utf8EncodeChar (c : Nat) : List Nat :=
  if c < 0x80 then [c]
  else if c < 0x800 then [0xC0 + c / 64, 0x80 + c % 64]
  else if c < 0x10000 then [0xE0 + c / 4096, 0x80 + c / 64 % 64, 0x80 + c % 64]
  else [0xF0 + c / 262144, 0x80 + c / 4096 % 64, 0x80 + c / 64 % 64, 0x80 + c % 64]

/-- UTF-8 encoding of a list of characters. -/
def utf8EncodeList : List Char → List Nat
  | [] => []
  | c :: cs => utf8EncodeChar c.toNat ++ utf8EncodeList cs

/-- UTF-8 encoding of a string, as `str.encode()` produces. -/
def utf8Encode (s : String) : List Nat :=
  utf8EncodeList s.data

/-- Decode one UTF-8 sequence from the front of a byte list, returning the code
point and the remaining bytes.  Overlong encodings, surrogates and out-of-range
code points are rejected, as CPython's strict UTF-8 decoder does. -/
def utf8Decode1 (bs : List Nat) : Option (Nat × List Nat) :=
  match bs with
  | [] => none
  | b :: rest =>
    if b < 0x80 then some (b, rest)
    else if b < 0xC0 then none
    else if b < 0xE0 then
      match rest with
      | b2 :: r2 =>
        if 0x80 ≤ b2 ∧ b2 < 0xC0 then
          let c := (b - 0xC0) * 64 + (b2 - 0x80)
          if 0x80 ≤ c then some (c, r2) else none
        else none
      | [] => none
    else if b < 0xF0 then
      match rest with
      | b2 :: b3 :: r3 =>
        if (0x80 ≤ b2 ∧ b2 < 0xC0) ∧ (0x80 ≤ b3 ∧ b3 < 0xC0) then
          let c := (b - 0xE0) * 4096 + (b2 - 0x80) * 64 + (b3 - 0x80)
          if 0x800 ≤ c ∧ ¬(0xD800 ≤ c ∧ c < 0xE000) then some (c, r3) else none
        else none
      | _ => none
    else if b < 0xF8 then
      match rest with
      | b2 :: b3 :: b4 :: r4 =>
        if (0x80 ≤ b2 ∧ b2 < 0xC0) ∧ (0x80 ≤ b3 ∧ b3 < 0xC0) ∧ (0x80 ≤ b4 ∧ b4 < 0xC0) then
          let c := (b - 0xF0) * 262144 + (b2 - 0x80) * 4096 + (b3 - 0x80) * 64 + (b4 - 0x80)
          if 0x10000 ≤ c ∧ c < 0x110000 then some (c, r4) else none
        else none
      | _ => none
    else none

/-- Decode a whole byte list into code points; the fuel argument bounds the
number of decoded characters (one byte of input per character at least). -/
def utf8DecodeAux : Nat → List Nat → Option (List Nat)
  | _, [] => some []
  | 0, _ :: _ => none
  | fuel + 1, bs =>
    match utf8Decode1 bs with
    | none => none
    | some pr =>
      match utf8DecodeAux fuel pr.2 with
      | none => none
      | some cs => some (pr.1 :: cs)

/-- Decode a byte list as a UTF-8 string (`bytes.decode('utf-8')`); `none`
models `UnicodeDecodeError`. -/
def utf8Decode (bs : List Nat) : Option String :=
  match utf8DecodeAux bs.length bs with
  | none => none
  | some cs => some (String.mk (cs.map Char.ofNat))

theorem utf8EncodeChar_ne_nil (c : Nat) : utf8EncodeChar c ≠ [] := by
  unfold utf8EncodeChar
  split <;> try simp
  split <;> try simp
  split <;> simp

/-- Decoding one character undoes encoding one character, for any valid
(non-surrogate, in-range) code point. -/
theorem utf8Decode1_encodeChar (c : Nat) (rest : List Nat)
    (hv : c < 0xD800 ∨ (0xE000 ≤ c ∧ c < 0x110000)) :
    utf8Decode1 (utf8EncodeChar c ++ rest) = some (c, rest) := by
  unfold utf8EncodeChar
  by_cases h1 : c < 0x80
  · simp only [if_pos h1, List.cons_append, List.nil_append]
    unfold utf8Decode1
    simp only []
    rw [if_pos h1]
  · by_cases h2 : c < 0x800
    · simp only [if_neg h1, if_pos h2, List.cons_append, List.nil_append]
      unfold utf8Decode1
      simp only []
      rw [if_neg (by omega)]
      rw [if_neg (by omega)]
      rw [if_pos (by omega)]
      rw [if_pos (by omega), if_pos (by omega)]
      simp only [Option.some.injEq, Prod.mk.injEq]
      exact ⟨by omega, trivial⟩
    · by_cases h3 : c < 0x10000
      · simp only [if_neg h1, if_neg h2, if_pos h3, List.cons_append, List.nil_append]
        unfold utf8Decode1
        simp only []
        rw [if_neg (by omega)]
        rw [if_neg (by omega)]
        rw [if_neg (by omega)]
        rw [if_pos (by omega), if_pos (by constructor <;> omega), if_pos (by omega)]
        simp only [Option.some.injEq, Prod.mk.injEq]
        exact ⟨by omega, trivial⟩
      · simp only [if_neg h1, if_neg h2, if_neg h3, List.cons_append, List.nil_append]
        unfold utf8Decode1
        simp only []
        rw [if_neg (by omega)]
        rw [if_neg (by omega)]
        rw [if_neg (by omega)]
        rw [if_neg (by omega)]
        rw [if_pos (by omega), if_pos (by refine ⟨⟨?_, ?_⟩, ⟨?_, ?_⟩, ?_, ?_⟩ <;> omega),
          if_pos (by omega)]
        simp only [Option.some.injEq, Prod.mk.injEq]
        exact ⟨by omega, trivial⟩

theorem charToNat_valid (c : Char) :
    c.toNat < 0xD800 ∨ (0xE000 ≤ c.toNat ∧ c.toNat < 0x110000) := by
  have h := c.valid
  simp only [UInt32.isValidChar, Nat.isValidChar] at h
  simp only [Char.toNat]
  omega

/-- Decoding undoes encoding on lists of characters, for any sufficient fuel. -/
theorem utf8DecodeAux_encode (cs : List Char) :
    ∀ fuel, (utf8EncodeList cs).length ≤ fuel →
      utf8DecodeAux fuel (utf8EncodeList cs) = some (cs.map Char.toNat) := by
  induction cs with
  | nil =>
    intro fuel _
    cases fuel <;> rfl
  | cons c cs ih =>
    intro fuel hf
    have hne : utf8EncodeList (c :: cs) ≠ [] := by
      simp only [utf8EncodeList]
      intro h
      exact utf8EncodeChar_ne_nil c.toNat (List.append_eq_nil.mp h).1
    have hlen : 1 ≤ (utf8EncodeChar c.toNat).length := by
      rcases h : utf8EncodeChar c.toNat with _ | _
      · exact absurd h (utf8EncodeChar_ne_nil c.toNat)
      · simp
    rcases fuel with _ | fuel
    · exfalso
      have : (utf8EncodeList (c :: cs)).length = 0 := Nat.le_zero.mp hf
      exact hne (List.length_eq_zero.mp this)
    · show utf8DecodeAux (fuel + 1) (utf8EncodeList (c :: cs)) = _
      have hstep : utf8Decode1 (utf8EncodeList (c :: cs)) = some (c.toNat, utf8EncodeList cs) := by
        simp only [utf8EncodeList]
        exact utf8Decode1_encodeChar c.toNat (utf8EncodeList cs) (charToNat_valid c)
      rcases hcons : utf8EncodeList (c :: cs) with _ | ⟨b, bs⟩
      · exact absurd hcons hne
      · rw [← hcons]
        have hrec : utf8DecodeAux fuel (utf8EncodeList cs) = some (cs.map Char.toNat) := by
        -- fuel suffices: the encoded head consumes at least one byte
          apply ih
          have : (utf8EncodeList (c :: cs)).length =
              (utf8EncodeChar c.toNat).length + (utf8EncodeList cs).length := by
            simp [utf8EncodeList]
          omega
        rw [hcons] at hstep ⊢
        unfold utf8DecodeAux
        rw [hstep]
        simp only []
        rw [hrec]
        rfl

/-- Full UTF-8 round trip: decoding the encoding of a string yields the string,
exactly as `s.encode().decode('utf-8') == s` in Python. -/
theorem utf8Decode_encode (s : String) : utf8Decode (utf8Encode s) = some s := by
  unfold utf8Decode utf8Encode
  rw [utf8DecodeAux_encode s.data _ (Nat.le_refl _)]
  simp only [Option.some.injEq]
  rw [List.map_map]
  have : (Char.ofNat ∘ Char.toNat) = id := by
    funext c
    exact Char.ofNat_toNat c
  rw [this, List.map_id]

/-! ## JSON values

Python's `json` module is modelled by a `Json` value type together with an
executable serializer (`json_dumps`, mirroring `json.dumps` with its default
`", "` / `": "` separators) and an executable parser (`json_loads`, mirroring
`json.loads`; `none` models `json.JSONDecodeError`).  Numbers are modelled as
integers: the protocol bodies only carry integral numbers, and floating point
is out of scope.  Python `dict`s are association lists in insertion order, with
last-wins lookup (`pyLookup`). -/

inductive Json where
  | null : Json
  | bool (b : Bool) : Json
  | num (n : Int) : Json
  | str (s : String) : Json
  | arr (elems : List Json) : Json
  | obj (fields : List (String × Json)) : Json

/-- Python `dict` lookup on a field list built by successive insertion:
the *last* binding of a key wins, absent keys give `none` (`dict.get`). -/
def pyLookup (fields : List (String × Json)) (k : String) : Option Json :=
  List.lookup k fields.reverse

/-- Python truthiness of a JSON value (`if response:`): `None`, `False`, `0`,
empty strings, empty lists and empty dicts are falsy. -/
def pyTruthy : Json → Bool
  | .null => false
  | .bool b => b
  | .num n => n != 0
  | .str s => !s.data.isEmpty
  | .arr l => !l.isEmpty
  | .obj l => !l.isEmpty

/-- Lowercase hexadecimal digit for `n < 16`. -/
def hexChar (n : Nat) : Char :=
  if n < 10 then Char.ofNat (48 + n) else Char.ofNat (87 + n)

/-- `json.dumps` escaping of one string character: `"` and `\` get a backslash
escape, control characters become `\u00XX`, everything else is kept. -/
def escapeChar (c : Char) : List Char :=
  if c = '"' then ['\\', '"']
  else if c = '\\' then ['\\', '\\']
  else if c.toNat < 0x20 then ['\\', 'u', '0', '0', hexChar (c.toNat / 16), hexChar (c.toNat % 16)]
  else [c]

def escapeList : List Char → List Char
  | [] => []
  | c :: cs => escapeChar c ++ escapeList cs

/-- Serialized JSON string literal, quotes included. -/
def dumpString (s : String) : List Char :=
  '"' :: (escapeList s.data ++ ['"'])

/-- Decimal digits of a natural number (no leading zeros); fuel-based. -/
def natDigitsAux : Nat → Nat → List Char
  | 0, _ => []
  | fuel + 1, n =>
    if n < 10 then [Char.ofNat (48 + n)]
    else natDigitsAux fuel (n / 10) ++ [Char.ofNat (48 + n % 10)]

def natDigits (n : Nat) : List Char :=
  natDigitsAux (n + 1) n

/-- Serialized JSON integer. -/
def dumpInt (n : Int) : List Char :=
  if n < 0 then '-' :: natDigits n.natAbs else natDigits n.toNat

mutual

/-- `json.dumps` of a value, as a character list. -/
def dumpJson : Json → List Char
  | .num n => dumpInt n
  | .null => ['n', 'u', 'l', 'l']
  | .str s => dumpString s
  | .bool true => ['t', 'r', 'u', 'e']
  | .arr l => '[' :: (dumpElems l ++ [']'])
  | .bool false => ['f', 'a', 'l', 's', 'e']
  | .obj l => '{' :: (dumpFields l ++ ['}'])

/-- Array elements joined by `", "` (the `json.dumps` default separator). -/
def dumpElems : List Json → List Char
  | [] => []
  | [x] => dumpJson x
  | x :: y :: ys => dumpJson x ++ ',' :: ' ' :: dumpElems (y :: ys)

/-- Object entries `"key": value` joined by `", "`. -/
def dumpFields : List (String × Json) → List Char
  | [] => []
  | [(k, v)] => dumpString k ++ ':' :: ' ' :: dumpJson v
  | (k, v) :: f :: fs => dumpString k ++ ':' :: ' ' :: dumpJson v ++ ',' :: ' ' :: dumpFields (f :: fs)

end

/-- `json.dumps(x)` as a string. -/
def json_dumps (j : Json) : String :=
  String.mk (dumpJson j)

/-! ### JSON parser -/

def isWsChar (c : Char) : Bool :=
  c = ' ' || c = '\t' || c = '\n' || c = '\r'

def isDigitChar (c : Char) : Bool :=
  48 ≤ c.toNat && c.toNat ≤ 57

/-- Drop leading JSON whitespace. -/
def skipWs : List Char → List Char
  | [] => []
  | c :: cs => if isWsChar c then skipWs cs else c :: cs

/-- Value of one hexadecimal digit character. -/
def hexVal (c : Char) : Option Nat :=
  if 48 ≤ c.toNat ∧ c.toNat ≤ 57 then some (c.toNat - 48)
  else if 97 ≤ c.toNat ∧ c.toNat ≤ 102 then some (c.toNat - 87)
  else if 65 ≤ c.toNat ∧ c.toNat ≤ 70 then some (c.toNat - 55)
  else none

/-- Parse the body of a JSON string literal (after the opening quote), up to
and including the closing quote; returns the characters and the rest of the
input.  Raw control characters are rejected, as `json.loads` does in its
default strict mode. -/
def parseStrChars : List Char → Option (List Char × List Char)
  | [] => none
  | c :: rest =>
    if c = '"' then some ([], rest)
    else if c = '\\' then
      match rest with
      | [] => none
      | e :: r =>
        if e = '"' then (parseStrChars r).map (fun pr => ('"' :: pr.1, pr.2))
        else if e = '\\' then (parseStrChars r).map (fun pr => ('\\' :: pr.1, pr.2))
        else if e = '/' then (parseStrChars r).map (fun pr => ('/' :: pr.1, pr.2))
        else if e = 'b' then (parseStrChars r).map (fun pr => (Char.ofNat 8 :: pr.1, pr.2))
        else if e = 'f' then (parseStrChars r).map (fun pr => (Char.ofNat 12 :: pr.1, pr.2))
        else if e = 'n' then (parseStrChars r).map (fun pr => (Char.ofNat 10 :: pr.1, pr.2))
        else if e = 'r' then (parseStrChars r).map (fun pr => (Char.ofNat 13 :: pr.1, pr.2))
        else if e = 't' then (parseStrChars r).map (fun pr => (Char.ofNat 9 :: pr.1, pr.2))
        else if e = 'u' then
          match r with
          | h1 :: h2 :: h3 :: h4 :: r2 =>
            match hexVal h1, hexVal h2, hexVal h3, hexVal h4 with
            | some a, some b, some v3, some v4 =>
              let n := ((a * 16 + b) * 16 + v3) * 16 + v4
              if n < 0xD800 ∨ 0xE000 ≤ n then
                (parseStrChars r2).map (fun pr => (Char.ofNat n :: pr.1, pr.2))
              else none
            | _, _, _, _ => none
          | _ => none
        else none
    else if c.toNat < 0x20 then none
    else (parseStrChars rest).map (fun pr => (c :: pr.1, pr.2))

/-- Longest digit prefix and the rest. -/
def spanDigits : List Char → List Char × List Char
  | [] => ([], [])
  | c :: rest =>
    if isDigitChar c then
      let pr := spanDigits rest
      (c :: pr.1, pr.2)
    else ([], c :: rest)

/-- Numeric value of a digit list. -/
def digitsVal (ds : List Char) : Nat :=
  ds.foldl (fun a c => a * 10 + (c.toNat - 48)) 0

def headIs (cs : List Char) (c : Char) : Bool :=
  match cs with
  | [] => false
  | x :: _ => x = c

mutual

/-- Parse one JSON value from the input (fuel bounds the nesting recursion);
returns the value and the unconsumed rest. -/
def parseVal : Nat → List Char → Option (Json × List Char)
  | 0, _ => none
  | fuel + 1, cs =>
    match skipWs cs with
    | [] => none
    | c :: rest =>
      if c = 'n' then
        match rest with
        | 'u' :: 'l' :: 'l' :: r => some (.null, r)
        | _ => none
      else if c = 't' then
        match rest with
        | 'r' :: 'u' :: 'e' :: r => some (.bool true, r)
        | _ => none
      else if c = 'f' then
        match rest with
        | 'a' :: 'l' :: 's' :: 'e' :: r => some (.bool false, r)
        | _ => none
      else if c = '"' then
        (parseStrChars rest).map (fun pr => (.str (String.mk pr.1), pr.2))
      else if c = '[' then
        let cs2 := skipWs rest
        if headIs cs2 ']' then some (.arr [], cs2.tail)
        else (parseElems fuel cs2).map (fun pr => (.arr pr.1, pr.2))
      else if c = '{' then
        let cs2 := skipWs rest
        if headIs cs2 '}' then some (.obj [], cs2.tail)
        else (parseFields fuel cs2).map (fun pr => (.obj pr.1, pr.2))
      else if c = '-' then
        let pr := spanDigits rest
        if pr.1.isEmpty then none else some (.num (-(digitsVal pr.1 : Int)), pr.2)
      else if isDigitChar c then
        let pr := spanDigits (c :: rest)
        some (.num (digitsVal pr.1 : Int), pr.2)
      else none

/-- Parse one or more comma-separated array elements followed by `]`. -/
def parseElems : Nat → List Char → Option (List Json × List Char)
  | 0, _ => none
  | fuel + 1, cs =>
    match parseVal fuel cs with
    | none => none
    | some (v, r) =>
      let r2 := skipWs r
      if headIs r2 ',' then
        match parseElems fuel r2.tail with
        | none => none
        | some (vs, r3) => some (v :: vs, r3)
      else if headIs r2 ']' then some ([v], r2.tail)
      else none

/-- Parse one or more comma-separated `"key": value` entries followed by `}`. -/
def parseFields : Nat → List Char → Option (List (String × Json) × List Char)
  | 0, _ => none
  | fuel + 1, cs =>
    match skipWs cs with
    | [] => none
    | c :: rest =>
      if c = '"' then
        match parseStrChars rest with
        | none => none
        | some (ks, r1) =>
          let r2 := skipWs r1
          if headIs r2 ':' then
            match parseVal fuel r2.tail with
            | none => none
            | some (v, r3) =>
              let r4 := skipWs r3
              if headIs r4 ',' then
                match parseFields fuel r4.tail with
                | none => none
                | some (fs, r5) => some ((String.mk ks, v) :: fs, r5)
              else if headIs r4 '}' then some ([(String.mk ks, v)], r4.tail)
              else none
          else none
      else none

end

/-- `json.loads(s)`: parse a complete JSON document; trailing whitespace is
allowed, anything else after the value is an error (`none`). -/
def json_loads (s : String) : Option Json :=
  match parseVal (s.data.length + 1) s.data with
  | none => none
  | some (j, r) => if (skipWs r).isEmpty then some j else none

/-! ### Round trip: `json_loads (json_dumps j) = some j` -/

theorem charToNat_inj {c d : Char} (h : c.toNat = d.toNat) : c = d := by
  have h2 := congrArg Char.ofNat h
  rwa [Char.ofNat_toNat, Char.ofNat_toNat] at h2

theorem charToNat_ofNat {n : Nat} (h : n < 0xD800) : (Char.ofNat n).toNat = n := by
  rw [Char.ofNat, dif_pos (Or.inl h)]
  rfl

theorem char_ne_of_toNat_ne {c d : Char} (h : c.toNat ≠ d.toNat) : c ≠ d :=
  fun he => h (congrArg Char.toNat he)

theorem isWsChar_false_of_toNat {c : Char}
    (h : c.toNat ≠ 32 ∧ c.toNat ≠ 9 ∧ c.toNat ≠ 10 ∧ c.toNat ≠ 13) : isWsChar c = false := by
  unfold isWsChar
  have h1 : (c = ' ') = False := by
    simp only [eq_iff_iff, iff_false]
    exact char_ne_of_toNat_ne (by simpa using h.1)
  have h2 : (c = '\t') = False := by
    simp only [eq_iff_iff, iff_false]
    exact char_ne_of_toNat_ne (by simpa using h.2.1)
  have h3 : (c = '\n') = False := by
    simp only [eq_iff_iff, iff_false]
    exact char_ne_of_toNat_ne (by simpa using h.2.2.1)
  have h4 : (c = '\r') = False := by
    simp only [eq_iff_iff, iff_false]
    exact char_ne_of_toNat_ne (by simpa using h.2.2.2)
  simp [h1, h2, h3, h4]

theorem isDigitChar_toNat {c : Char} (h : isDigitChar c = true) :
    48 ≤ c.toNat ∧ c.toNat ≤ 57 := by
  unfold isDigitChar at h
  simp only [Bool.and_eq_true, decide_eq_true_eq] at h
  exact h

theorem isDigitChar_not_ws {c : Char} (h : isDigitChar c = true) : isWsChar c = false := by
  have hb := isDigitChar_toNat h
  exact isWsChar_false_of_toNat (by omega)

theorem skipWs_cons {c : Char} {cs : List Char} (h : isWsChar c = false) :
    skipWs (c :: cs) = c :: cs := by
  simp [skipWs, h]

theorem hexVal_hexChar : ∀ n, n < 16 → hexVal (hexChar n) = some n := by
  decide

/-- Parsing a serialized string literal body recovers the characters. -/
theorem parseStrChars_escape (cs : List Char) :
    ∀ rest, parseStrChars (escapeList cs ++ '"' :: rest) = some (cs, rest) := by
  induction cs with
  | nil =>
    intro rest
    simp only [escapeList, List.nil_append]
    rw [parseStrChars.eq_def]
    simp
  | cons c cs ih =>
    intro rest
    simp only [escapeList, List.append_assoc]
    by_cases h1 : c = '"'
    · subst h1
      simp only [escapeChar, if_pos rfl, List.cons_append, List.nil_append]
      rw [parseStrChars.eq_def]
      simp [ih rest]
    · by_cases h2 : c = '\\'
      · subst h2
        simp only [escapeChar, if_neg h1, if_pos rfl, List.cons_append, List.nil_append]
        rw [parseStrChars.eq_def]
        simp [ih rest]
      · by_cases h3 : c.toNat < 0x20
        · simp only [escapeChar, if_neg h1, if_neg h2, if_pos h3, List.cons_append,
            List.nil_append]
          have hhi := hexVal_hexChar (c.toNat / 16) (by omega)
          have hlo := hexVal_hexChar (c.toNat % 16) (by omega)
          rw [parseStrChars.eq_def]
          simp [hhi, hlo, show hexVal '0' = some 0 from rfl]
          rw [show c.toNat / 16 * 16 + c.toNat % 16 = c.toNat by omega]
          rw [Char.ofNat_toNat]
          exact ⟨by omega, ih rest, rfl⟩
        · simp only [escapeChar, if_neg h1, if_neg h2, if_neg h3, List.cons_append,
            List.nil_append]
          rw [parseStrChars.eq_def]
          simp only [if_neg h1, if_neg h2, if_neg h3, ih rest]
          rfl

theorem digitsVal_append_digit (ds : List Char) (d : Char) :
    digitsVal (ds ++ [d]) = digitsVal ds * 10 + (d.toNat - 48) := by
  simp [digitsVal, List.foldl_append]

theorem isDigitChar_ofNat {n : Nat} (h : n < 10) :
    isDigitChar (Char.ofNat (48 + n)) = true := by
  simp only [isDigitChar, Bool.and_eq_true, decide_eq_true_eq]
  rw [charToNat_ofNat (by omega)]
  omega

theorem natDigitsAux_spec :
    ∀ fuel n, n < 10 ^ (fuel + 1) →
      natDigitsAux (fuel + 1) n ≠ [] ∧
      (∀ d ∈ natDigitsAux (fuel + 1) n, isDigitChar d = true) ∧
      digitsVal (natDigitsAux (fuel + 1) n) = n := by
  intro fuel
  induction fuel with
  | zero =>
    intro n hn
    have h10 : n < 10 := by simpa using hn
    simp only [natDigitsAux, if_pos h10]
    refine ⟨by simp, ?_, ?_⟩
    · intro d hd
      rcases List.mem_singleton.mp hd with rfl
      exact isDigitChar_ofNat h10
    · simp [digitsVal]
      rw [charToNat_ofNat (by omega)]
      omega
  | succ fuel ih =>
    intro n hn
    by_cases h10 : n < 10
    · simp only [natDigitsAux, if_pos h10]
      refine ⟨by simp, ?_, ?_⟩
      · intro d hd
        rcases List.mem_singleton.mp hd with rfl
        exact isDigitChar_ofNat h10
      · simp [digitsVal]
        rw [charToNat_ofNat (by omega)]
        omega
    · have hdiv : n / 10 < 10 ^ (fuel + 1) := by
        rw [Nat.div_lt_iff_lt_mul (by omega)]
        calc n < 10 ^ (fuel + 1 + 1) := hn
        _ = 10 ^ (fuel + 1) * 10 := by rw [pow_succ]
      obtain ⟨hne, hdig, hval⟩ := ih (n / 10) hdiv
      have heq : natDigitsAux (fuel + 1 + 1) n =
          natDigitsAux (fuel + 1) (n / 10) ++ [Char.ofNat (48 + n % 10)] := by
        conv_lhs => rw [natDigitsAux]
        rw [if_neg h10]
      rw [heq]
      refine ⟨by simp, ?_, ?_⟩
      · intro d hd
        rcases List.mem_append.mp hd with h | h
        · exact hdig d h
        · rcases List.mem_singleton.mp h with rfl
          exact isDigitChar_ofNat (by omega)
      · rw [digitsVal_append_digit, hval, charToNat_ofNat (by omega)]
        omega

theorem natDigits_spec (n : Nat) :
    natDigits n ≠ [] ∧
    (∀ d ∈ natDigits n, isDigitChar d = true) ∧
    digitsVal (natDigits n) = n := by
  have hlt : n < 10 ^ (n + 1) := by
    calc n < 10 ^ n := Nat.lt_pow_self (by omega) n
    _ ≤ 10 ^ (n + 1) := Nat.pow_le_pow_right (by omega) (by omega)
  exact natDigitsAux_spec n n hlt

/-- Does the input start with a decimal digit? -/
def digitStart : List Char → Bool
  | [] => false
  | c :: _ => isDigitChar c

theorem spanDigits_append {ds rest : List Char} (hd : ∀ d ∈ ds, isDigitChar d = true)
    (hr : digitStart rest = false) : spanDigits (ds ++ rest) = (ds, rest) := by
  induction ds with
  | nil =>
    rcases rest with _ | ⟨c, tl⟩
    · rfl
    · simp only [digitStart] at hr
      simp [spanDigits, hr]
  | cons d ds ih =>
    have hdd : isDigitChar d = true := hd d (by simp)
    simp only [List.cons_append, spanDigits, if_pos hdd, List.append_eq]
    rw [ih (fun x hx => hd x (by simp [hx]))]

/-- Characters that can begin a serialized JSON value. -/
def valStart (c : Char) : Bool :=
  c = 'n' || c = 't' || c = 'f' || c = '"' || c = '[' || c = '{' || c = '-' || isDigitChar c

theorem valStart_toNat {c : Char} (h : valStart c = true) :
    c.toNat = 110 ∨ c.toNat = 116 ∨ c.toNat = 102 ∨ c.toNat = 34 ∨ c.toNat = 91 ∨
      c.toNat = 123 ∨ c.toNat = 45 ∨ (48 ≤ c.toNat ∧ c.toNat ≤ 57) := by
  simp only [valStart, Bool.or_eq_true, decide_eq_true_eq] at h
  rcases h with ((((((rfl | rfl) | rfl) | rfl) | rfl) | rfl) | rfl) | hd
  all_goals try decide
  have := isDigitChar_toNat hd
  omega

theorem valStart_not_ws {c : Char} (h : valStart c = true) : isWsChar c = false := by
  have := valStart_toNat h
  exact isWsChar_false_of_toNat (by omega)

/-- The serialization of any value starts with a value-start character. -/
theorem dumpJson_head (j : Json) : ∃ c tl, dumpJson j = c :: tl ∧ valStart c = true := by
  cases j with
  | null => exact ⟨'n', _, rfl, by decide⟩
  | bool b => cases b with
    | true => exact ⟨'t', _, rfl, by decide⟩
    | false => exact ⟨'f', _, rfl, by decide⟩
  | num n =>
    show ∃ c tl, dumpInt n = c :: tl ∧ valStart c = true
    unfold dumpInt
    by_cases hn : n < 0
    · exact ⟨'-', _, by rw [if_pos hn], by decide⟩
    · rw [if_neg hn]
      obtain ⟨hne, hdig, -⟩ := natDigits_spec n.toNat
      rcases hcons : natDigits n.toNat with _ | ⟨d, tl⟩
      · exact absurd hcons hne
      · refine ⟨d, tl, rfl, ?_⟩
        have : isDigitChar d = true := hdig d (by rw [hcons]; simp)
        simp [valStart, this]
  | str s => exact ⟨'"', _, rfl, by decide⟩
  | arr l => exact ⟨'[', _, rfl, by decide⟩
  | obj l => exact ⟨'{', _, rfl, by decide⟩

mutual

/-- Fuel needed by `parseVal` to parse the serialization of a value. -/
def szV : Json → Nat
  | .arr l => 1 + szL l
  | .null => 1
  | .obj l => 1 + szF l
  | .bool _ => 1
  | .num _ => 1
  | .str _ => 1

def szL : List Json → Nat
  | [] => 0
  | x :: xs => 1 + szV x + szL xs

def szF : List (String × Json) → Nat
  | [] => 0
  | f :: fs => 1 + szV f.2 + szF fs

end

theorem parseVal_null (fuel : Nat) (rest : List Char) :
    parseVal (fuel + 1) ('n' :: 'u' :: 'l' :: 'l' :: rest) = some (.null, rest) := by
  rw [parseVal.eq_def]
  simp [skipWs, isWsChar]

theorem parseVal_true (fuel : Nat) (rest : List Char) :
    parseVal (fuel + 1) ('t' :: 'r' :: 'u' :: 'e' :: rest) = some (.bool true, rest) := by
  rw [parseVal.eq_def]
  simp [skipWs, isWsChar]

theorem parseVal_false (fuel : Nat) (rest : List Char) :
    parseVal (fuel + 1) ('f' :: 'a' :: 'l' :: 's' :: 'e' :: rest) = some (.bool false, rest) := by
  rw [parseVal.eq_def]
  simp [skipWs, isWsChar]

theorem parseVal_quote (fuel : Nat) (rest : List Char) :
    parseVal (fuel + 1) ('"' :: rest) =
      (parseStrChars rest).map (fun pr => (.str (String.mk pr.1), pr.2)) := by
  rw [parseVal.eq_def]
  simp [skipWs, isWsChar]

theorem parseVal_lsqb (fuel : Nat) (rest : List Char) :
    parseVal (fuel + 1) ('[' :: rest) =
      if headIs (skipWs rest) ']' then some (.arr [], (skipWs rest).tail)
      else (parseElems fuel (skipWs rest)).map (fun pr => (.arr pr.1, pr.2)) := by
  rw [parseVal.eq_def]
  simp only []
  rw [skipWs_cons (by decide)]
  simp only []
  rw [if_neg (by decide), if_neg (by decide), if_neg (by decide), if_neg (by decide),
    if_pos trivial]

theorem parseVal_lcurly (fuel : Nat) (rest : List Char) :
    parseVal (fuel + 1) ('{' :: rest) =
      if headIs (skipWs rest) '}' then some (.obj [], (skipWs rest).tail)
      else (parseFields fuel (skipWs rest)).map (fun pr => (.obj pr.1, pr.2)) := by
  rw [parseVal.eq_def]
  simp only []
  rw [skipWs_cons (by decide)]
  simp only []
  rw [if_neg (by decide), if_neg (by decide), if_neg (by decide), if_neg (by decide),
    if_neg (by decide), if_pos trivial]

theorem parseVal_minus (fuel : Nat) (rest : List Char) :
    parseVal (fuel + 1) ('-' :: rest) =
      if (spanDigits rest).1.isEmpty then none
      else some (.num (-(digitsVal (spanDigits rest).1 : Int)), (spanDigits rest).2) := by
  rw [parseVal.eq_def]
  simp only []
  rw [skipWs_cons (by decide)]
  simp only []
  rw [if_neg (by decide), if_neg (by decide), if_neg (by decide), if_neg (by decide),
    if_neg (by decide), if_neg (by decide), if_pos trivial]

theorem parseVal_digit (fuel : Nat) {d : Char} (hd : isDigitChar d = true) (tl : List Char) :
    parseVal (fuel + 1) (d :: tl) =
      some (.num (digitsVal (spanDigits (d :: tl)).1 : Int), (spanDigits (d :: tl)).2) := by
  have hb := isDigitChar_toNat hd
  rw [parseVal.eq_def]
  simp only []
  rw [skipWs_cons (isDigitChar_not_ws hd)]
  simp only []
  rw [if_neg (char_ne_of_toNat_ne (by omega : d.toNat ≠ 110)),
    if_neg (char_ne_of_toNat_ne (by omega : d.toNat ≠ 116)),
    if_neg (char_ne_of_toNat_ne (by omega : d.toNat ≠ 102)),
    if_neg (char_ne_of_toNat_ne (by omega : d.toNat ≠ 34)),
    if_neg (char_ne_of_toNat_ne (by omega : d.toNat ≠ 91)),
    if_neg (char_ne_of_toNat_ne (by omega : d.toNat ≠ 123)),
    if_neg (char_ne_of_toNat_ne (by omega : d.toNat ≠ 45)),
    if_pos hd]

theorem parseVal_ws (fuel : Nat) {c : Char} (h : isWsChar c = true) (cs : List Char) :
    parseVal fuel (c :: cs) = parseVal fuel cs := by
  cases fuel with
  | zero => rfl
  | succ fuel =>
    rw [parseVal.eq_def]
    conv_rhs => rw [parseVal.eq_def]
    simp only []
    rw [show skipWs (c :: cs) = skipWs cs from by rw [skipWs, if_pos h]]

theorem parseElems_ws (fuel : Nat) {c : Char} (h : isWsChar c = true) (cs : List Char) :
    parseElems fuel (c :: cs) = parseElems fuel cs := by
  cases fuel with
  | zero => rfl
  | succ fuel =>
    rw [parseElems.eq_def]
    conv_rhs => rw [parseElems.eq_def]
    simp only []
    rw [parseVal_ws fuel h cs]

theorem parseFields_ws (fuel : Nat) {c : Char} (h : isWsChar c = true) (cs : List Char) :
    parseFields fuel (c :: cs) = parseFields fuel cs := by
  cases fuel with
  | zero => rfl
  | succ fuel =>
    rw [parseFields.eq_def]
    conv_rhs => rw [parseFields.eq_def]
    simp only []
    rw [show skipWs (c :: cs) = skipWs cs from by rw [skipWs, if_pos h]]

theorem digitStart_cons (c : Char) (tl : List Char) : digitStart (c :: tl) = isDigitChar c := rfl

/-- The parser recovers any serialized value, element list, or field list,
given enough fuel; the serialized text may be followed by any suffix that does
not start with a digit. -/
theorem parse_dump : ∀ fuel,
    (∀ j rest, szV j < fuel → digitStart rest = false →
      parseVal fuel (dumpJson j ++ rest) = some (j, rest)) ∧
    (∀ l rest, l ≠ [] → szL l < fuel →
      parseElems fuel (dumpElems l ++ ']' :: rest) = some (l, rest)) ∧
    (∀ l rest, l ≠ [] → szF l < fuel →
      parseFields fuel (dumpFields l ++ '}' :: rest) = some (l, rest)) := by
  intro fuel
  induction fuel with
  | zero =>
    exact ⟨fun j rest h _ => absurd h (Nat.not_lt_zero _),
      fun l rest _ h => absurd h (Nat.not_lt_zero _),
      fun l rest _ h => absurd h (Nat.not_lt_zero _)⟩
  | succ fuel ih =>
    obtain ⟨ihV, ihE, ihF⟩ := ih
    refine ⟨?_, ?_, ?_⟩
    · intro j rest hsz hrest
      cases j with
      | null =>
        simp only [dumpJson, List.cons_append, List.nil_append]
        exact parseVal_null fuel rest
      | bool b =>
        cases b with
        | true =>
          simp only [dumpJson, List.cons_append, List.nil_append]
          exact parseVal_true fuel rest
        | false =>
          simp only [dumpJson, List.cons_append, List.nil_append]
          exact parseVal_false fuel rest
      | num n =>
        simp only [dumpJson]
        by_cases hn : n < 0
        · rw [show dumpInt n = '-' :: natDigits n.natAbs from by rw [dumpInt, if_pos hn]]
          rw [List.cons_append, parseVal_minus]
          obtain ⟨hne, hdig, hval⟩ := natDigits_spec n.natAbs
          rw [spanDigits_append hdig hrest]
          have hie : (natDigits n.natAbs).isEmpty = false := by
            rcases h : natDigits n.natAbs with _ | _
            · exact absurd h hne
            · rfl
          simp only [hie, Bool.false_eq_true, if_false]
          rw [hval]
          have hcast : -((n.natAbs : Nat) : Int) = n := by omega
          rw [hcast]
        · rw [show dumpInt n = natDigits n.toNat from by rw [dumpInt, if_neg hn]]
          obtain ⟨hne, hdig, hval⟩ := natDigits_spec n.toNat
          rcases hds : natDigits n.toNat with _ | ⟨d, tl⟩
          · exact absurd hds hne
          · rw [List.cons_append]
            have hd : isDigitChar d = true := hdig d (by rw [hds]; simp)
            rw [parseVal_digit fuel hd]
            have hsp : spanDigits (d :: (tl ++ rest)) = (natDigits n.toNat, rest) := by
              rw [show d :: (tl ++ rest) = natDigits n.toNat ++ rest from by rw [hds]; simp]
              exact spanDigits_append hdig hrest
            rw [hsp, hval]
            have hcast : ((n.toNat : Nat) : Int) = n := by omega
            rw [hcast]
      | str s =>
        simp only [dumpJson, dumpString]
        rw [show ('"' :: (escapeList s.data ++ ['"'])) ++ rest =
          '"' :: (escapeList s.data ++ '"' :: rest) from by simp]
        rw [parseVal_quote, parseStrChars_escape]
        rfl
      | arr l =>
        simp only [dumpJson]
        rw [show ('[' :: (dumpElems l ++ [']'])) ++ rest =
          '[' :: (dumpElems l ++ ']' :: rest) from by simp]
        rw [parseVal_lsqb]
        cases l with
        | nil =>
          rw [show dumpElems ([] : List Json) = [] from by rw [dumpElems]]
          rw [List.nil_append, skipWs_cons (by decide)]
          rw [if_pos (by simp [headIs])]
          rfl
        | cons x xs =>
          obtain ⟨c, ctl, hcons, hstart⟩ := dumpJson_head x
          obtain ⟨t, ht⟩ : ∃ t, dumpElems (x :: xs) = dumpJson x ++ t := by
            cases xs with
            | nil => exact ⟨[], by rw [dumpElems]; simp⟩
            | cons y ys => exact ⟨',' :: ' ' :: dumpElems (y :: ys), by rw [dumpElems]⟩
          have hshape : dumpElems (x :: xs) ++ ']' :: rest =
              c :: (ctl ++ t ++ ']' :: rest) := by
            rw [ht, hcons]
            simp
          rw [hshape, skipWs_cons (valStart_not_ws hstart)]
          have hnr : headIs (c :: (ctl ++ t ++ ']' :: rest)) ']' = false := by
            simp only [headIs, decide_eq_false_iff_not]
            exact char_ne_of_toNat_ne
              (show c.toNat ≠ 93 by have := valStart_toNat hstart; omega)
          rw [hnr]
          simp only [Bool.false_eq_true, if_false]
          rw [← hshape]
          rw [ihE (x :: xs) rest (by simp)
            (by have : szV (.arr (x :: xs)) = 1 + szL (x :: xs) := by rw [szV]
                omega)]
          rfl
      | obj l =>
        simp only [dumpJson]
        rw [show ('{' :: (dumpFields l ++ ['}'])) ++ rest =
          '{' :: (dumpFields l ++ '}' :: rest) from by simp]
        rw [parseVal_lcurly]
        cases l with
        | nil =>
          rw [show dumpFields ([] : List (String × Json)) = [] from by rw [dumpFields]]
          rw [List.nil_append, skipWs_cons (by decide)]
          rw [if_pos (by simp [headIs])]
          rfl
        | cons kv fs =>
          obtain ⟨t, ht⟩ : ∃ t, dumpFields (kv :: fs) = '"' :: t := by
            cases fs with
            | nil =>
              refine ⟨(escapeList kv.1.data ++ ['"']) ++ ':' :: ' ' :: dumpJson kv.2, ?_⟩
              rw [show dumpFields [kv] = dumpString kv.1 ++ ':' :: ' ' :: dumpJson kv.2 from
                by rcases kv with ⟨k, v⟩; rw [dumpFields]]
              rw [dumpString]
              simp
            | cons f fs2 =>
              refine ⟨(escapeList kv.1.data ++ ['"']) ++ ':' :: ' ' :: dumpJson kv.2 ++
                ',' :: ' ' :: dumpFields (f :: fs2), ?_⟩
              rw [show dumpFields (kv :: f :: fs2) = dumpString kv.1 ++ ':' :: ' ' ::
                dumpJson kv.2 ++ ',' :: ' ' :: dumpFields (f :: fs2) from
                by rcases kv with ⟨k, v⟩; rw [dumpFields]]
              rw [dumpString]
              simp
          have hshape : dumpFields (kv :: fs) ++ '}' :: rest = '"' :: (t ++ '}' :: rest) := by
            rw [ht]
            simp
          rw [hshape, skipWs_cons (by decide)]
          rw [show headIs ('"' :: (t ++ '}' :: rest)) '}' = false from by simp [headIs]]
          simp only [Bool.false_eq_true, if_false]
          rw [← hshape]
          rw [ihF (kv :: fs) rest (by simp)
            (by have : szV (.obj (kv :: fs)) = 1 + szF (kv :: fs) := by rw [szV]
                omega)]
          rfl
    · intro l rest hne hsz
      cases l with
      | nil => exact absurd rfl hne
      | cons x xs =>
        have hsze : szL (x :: xs) = 1 + szV x + szL xs := by rw [szL]
        rw [parseElems.eq_def]
        simp only []
        cases xs with
        | nil =>
          rw [show dumpElems [x] = dumpJson x from by rw [dumpElems]]
          rw [ihV x (']' :: rest) (by omega) (by rw [digitStart_cons]; decide)]
          simp only []
          rw [skipWs_cons (by decide)]
          rw [show headIs (']' :: rest) ',' = false from by simp [headIs]]
          simp only [Bool.false_eq_true, if_false]
          rw [if_pos (by simp [headIs])]
          rfl
        | cons y ys =>
          rw [show dumpElems (x :: y :: ys) = dumpJson x ++ ',' :: ' ' :: dumpElems (y :: ys)
            from by rw [dumpElems]]
          rw [show (dumpJson x ++ ',' :: ' ' :: dumpElems (y :: ys)) ++ ']' :: rest =
            dumpJson x ++ ',' :: ' ' :: (dumpElems (y :: ys) ++ ']' :: rest) from by simp]
          rw [ihV x _ (by omega) (by rw [digitStart_cons]; decide)]
          simp only []
          rw [skipWs_cons (by decide)]
          rw [if_pos (by simp [headIs])]
          simp only [List.tail_cons]
          rw [parseElems_ws fuel (by decide)]
          have hszyys : szL (y :: ys) < fuel := by
            have : szL (y :: ys) = 1 + szV y + szL ys := by rw [szL]
            omega
          rw [ihE (y :: ys) rest (by simp) hszyys]
    · intro l rest hne hsz
      cases l with
      | nil => exact absurd rfl hne
      | cons kv fs =>
        rcases kv with ⟨k, v⟩
        have hszf : szF ((k, v) :: fs) = 1 + szV v + szF fs := by rw [szF]
        rw [parseFields.eq_def]
        simp only []
        cases fs with
        | nil =>
          rw [show dumpFields [(k, v)] = dumpString k ++ ':' :: ' ' :: dumpJson v from
            by rw [dumpFields]]
          rw [dumpString]
          rw [show (('"' :: (escapeList k.data ++ ['"'])) ++ ':' :: ' ' :: dumpJson v) ++
            '}' :: rest = '"' :: (escapeList k.data ++ '"' ::
              (':' :: ' ' :: (dumpJson v ++ '}' :: rest))) from by simp]
          rw [skipWs_cons (by decide)]
          simp only []
          rw [if_pos trivial]
          rw [parseStrChars_escape]
          simp only []
          rw [skipWs_cons (by decide)]
          rw [if_pos (by simp [headIs])]
          simp only [List.tail_cons]
          rw [parseVal_ws fuel (by decide)]
          rw [ihV v _ (by omega) (by rw [digitStart_cons]; decide)]
          simp only []
          rw [skipWs_cons (by decide)]
          rw [show headIs ('}' :: rest) ',' = false from by simp [headIs]]
          simp only [Bool.false_eq_true, if_false]
          rw [if_pos (by simp [headIs])]
          rfl
        | cons f fs2 =>
          rw [show dumpFields ((k, v) :: f :: fs2) = dumpString k ++ ':' :: ' ' ::
            dumpJson v ++ ',' :: ' ' :: dumpFields (f :: fs2) from by rw [dumpFields]]
          rw [dumpString]
          rw [show (('"' :: (escapeList k.data ++ ['"'])) ++ ':' :: ' ' :: dumpJson v ++
            ',' :: ' ' :: dumpFields (f :: fs2)) ++ '}' :: rest =
            '"' :: (escapeList k.data ++ '"' :: (':' :: ' ' :: (dumpJson v ++
              ',' :: ' ' :: (dumpFields (f :: fs2) ++ '}' :: rest)))) from by simp]
          rw [skipWs_cons (by decide)]
          simp only []
          rw [if_pos trivial]
          rw [parseStrChars_escape]
          simp only []
          rw [skipWs_cons (by decide)]
          rw [if_pos (by simp [headIs])]
          simp only [List.tail_cons]
          rw [parseVal_ws fuel (by decide)]
          rw [ihV v _ (by omega) (by rw [digitStart_cons]; decide)]
          simp only []
          rw [skipWs_cons (by decide)]
          rw [if_pos (by simp [headIs])]
          simp only [List.tail_cons]
          rw [parseFields_ws fuel (by decide)]
          have hszfs : szF (f :: fs2) < fuel := by
            have : szF (f :: fs2) = 1 + szV f.2 + szF fs2 := by rw [szF]
            omega
          rw [ihF (f :: fs2) rest (by simp) hszfs]

mutual

theorem szV_le_len : (j : Json) → szV j ≤ (dumpJson j).length
  | .null => by simp [szV, dumpJson]
  | .bool b => by cases b <;> simp [szV, dumpJson]
  | .num n => by
    simp only [szV, dumpJson, dumpInt]
    split
    · simp
    · obtain ⟨hne, -, -⟩ := natDigits_spec n.toNat
      rcases h : natDigits n.toNat with _ | _
      · exact absurd h hne
      · simp [h]
  | .str s => by simp [szV, dumpJson, dumpString]
  | .arr l => by
    have h := szL_le_len l
    simp only [szV, dumpJson, List.length_cons, List.length_append]
    omega
  | .obj l => by
    have h := szF_le_len l
    simp only [szV, dumpJson, List.length_cons, List.length_append]
    omega

theorem szL_le_len : (l : List Json) → szL l ≤ (dumpElems l).length + 1
  | [] => by simp [szL, dumpElems]
  | [x] => by
    have h := szV_le_len x
    simp only [szL, szF, dumpElems]
    omega
  | x :: y :: ys => by
    have h1 := szV_le_len x
    have h2 := szL_le_len (y :: ys)
    rw [show dumpElems (x :: y :: ys) = dumpJson x ++ ',' :: ' ' :: dumpElems (y :: ys) from
      by rw [dumpElems]]
    rw [show szL (x :: y :: ys) = 1 + szV x + szL (y :: ys) from by rw [szL]]
    simp only [List.length_append, List.length_cons]
    omega

theorem szF_le_len : (l : List (String × Json)) → szF l ≤ (dumpFields l).length + 1
  | [] => by simp [szF, dumpFields]
  | [(k, v)] => by
    have h := szV_le_len v
    have hsf : szF [(k, v)] = 1 + szV v := by simp [szF]
    rw [show dumpFields [(k, v)] = dumpString k ++ ':' :: ' ' :: dumpJson v from
      by rw [dumpFields]]
    simp only [List.length_append, List.length_cons]
    omega
  | (k, v) :: f :: fs => by
    have h1 := szV_le_len v
    have h2 := szF_le_len (f :: fs)
    rw [show dumpFields ((k, v) :: f :: fs) = dumpString k ++ ':' :: ' ' :: dumpJson v ++
      ',' :: ' ' :: dumpFields (f :: fs) from by rw [dumpFields]]
    rw [show szF ((k, v) :: f :: fs) = 1 + szV v + szF (f :: fs) from by rw [szF]]
    simp only [List.length_append, List.length_cons]
    omega

end

/-- Full JSON round trip: `json.loads(json.dumps(x)) == x`. -/
theorem json_loads_dumps (j : Json) : json_loads (json_dumps j) = some j := by
  unfold json_loads json_dumps
  have hdata : (String.mk (dumpJson j)).data = dumpJson j := rfl
  rw [hdata]
  have hfuel : szV j < (dumpJson j).length + 1 := Nat.lt_succ_of_le (szV_le_len j)
  have h := (parse_dump ((dumpJson j).length + 1)).1 j [] hfuel rfl
  rw [List.append_nil] at h
  rw [h]
  rfl

/-! ## MD5

`hashlib.md5(...).hexdigest()` is modelled by a byte-level transcription of the
standard MD5 algorithm (RFC 1321) over `Nat` with explicit `% 2^32`
reductions. -/

def md5K : List Nat :=
  [0xd76aa478, 0xe8c7b756, 0x242070db, 0xc1bdceee,
   0xf57c0faf, 0x4787c62a, 0xa8304613, 0xfd469501,
   0x698098d8, 0x8b44f7af, 0xffff5bb1, 0x895cd7be,
   0x6b901122, 0xfd987193, 0xa679438e, 0x49b40821,
   0xf61e2562, 0xc040b340, 0x265e5a51, 0xe9b6c7aa,
   0xd62f105d, 0x02441453, 0xd8a1e681, 0xe7d3fbc8,
   0x21e1cde6, 0xc33707d6, 0xf4d50d87, 0x455a14ed,
   0xa9e3e905, 0xfcefa3f8, 0x676f02d9, 0x8d2a4c8a,
   0xfffa3942, 0x8771f681, 0x6d9d6122, 0xfde5380c,
   0xa4beea44, 0x4bdecfa9, 0xf6bb4b60, 0xbebfbc70,
   0x289b7ec6, 0xeaa127fa, 0xd4ef3085, 0x04881d05,
   0xd9d4d039, 0xe6db99e5, 0x1fa27cf8, 0xc4ac5665,
   0xf4292244, 0x432aff97, 0xab9423a7, 0xfc93a039,
   0x655b59c3, 0x8f0ccc92, 0xffeff47d, 0x85845dd1,
   0x6fa87e4f, 0xfe2ce6e0, 0xa3014314, 0x4e0811a1,
   0xf7537e82, 0xbd3af235, 0x2ad7d2bb, 0xeb86d391]

def md5S : List Nat :=
  [7, 12, 17, 22, 7, 12, 17, 22, 7, 12, 17, 22, 7, 12, 17, 22,
   5, 9, 14, 20, 5, 9, 14, 20, 5, 9, 14, 20, 5, 9, 14, 20,
   4, 11, 16, 23, 4, 11, 16, 23, 4, 11, 16, 23, 4, 11, 16, 23,
   6, 10, 15, 21, 6, 10, 15, 21, 6, 10, 15, 21, 6, 10, 15, 21]

/-- 32-bit left rotation (operands below `2^32`). -/
def rotl32 (x n : Nat) : Nat :=
  (x * 2 ^ n + x / 2 ^ (32 - n)) % 4294967296

/-- 32-bit bitwise complement. -/
def not32 (x : Nat) : Nat :=
  4294967295 - x

/-- Little-endian bytes of a 32-bit word. -/
def le4 (n : Nat) : List Nat :=
  [n % 256, n / 256 % 256, n / 65536 % 256, n / 16777216 % 256]

/-- Little-endian bytes of a 64-bit word. -/
def le8 (n : Nat) : List Nat :=
  (List.range 8).map (fun i => n / 2 ^ (8 * i) % 256)

/-- MD5 padding: `0x80`, zeros to 56 mod 64, then the bit length in 64 bits. -/
def md5Pad (msg : List Nat) : List Nat :=
  msg ++ [0x80] ++ List.replicate ((119 - msg.length % 64) % 64) 0 ++
    le8 (msg.length * 8 % 18446744073709551616)

/-- Split a byte list into 64-byte chunks. -/
def chunks64 : List Nat → List (List Nat)
  | [] => []
  | b :: rest => (b :: rest).take 64 :: chunks64 ((b :: rest).drop 64)
termination_by l => l.length
decreasing_by simp; omega

/-- The j-th little-endian 32-bit word of a chunk. -/
def chunkWord (chunk : List Nat) (j : Nat) : Nat :=
  chunk.getD (4 * j) 0 + chunk.getD (4 * j + 1) 0 * 256 +
    chunk.getD (4 * j + 2) 0 * 65536 + chunk.getD (4 * j + 3) 0 * 16777216

/-- One MD5 round: mixing function value and message index for round `i`;
the first state word `a` does not enter the mixing function itself. -/
def md5FG (i _a b c d : Nat) : Nat × Nat :=
  if i < 16 then ((b &&& c) ||| (not32 b &&& d), i)
  else if i < 32 then ((d &&& b) ||| (not32 d &&& c), (5 * i + 1) % 16)
  else if i < 48 then (b ^^^ c ^^^ d, (3 * i + 5) % 16)
  else (c ^^^ (b ||| not32 d), (7 * i) % 16)

/-- Process one 64-byte chunk, updating the four state words. -/
def md5Chunk (st : Nat × Nat × Nat × Nat) (chunk : List Nat) : Nat × Nat × Nat × Nat :=
  let res := (List.range 64).foldl
    (fun (acc : Nat × Nat × Nat × Nat) i =>
      let a := acc.1
      let b := acc.2.1
      let c := acc.2.2.1
      let d := acc.2.2.2
      let fg := md5FG i a b c d
      let tmp := (a + fg.1 + md5K.getD i 0 + chunkWord chunk fg.2) % 4294967296
      (d, (b + rotl32 tmp (md5S.getD i 0)) % 4294967296, b, c))
    st
  ((st.1 + res.1) % 4294967296, (st.2.1 + res.2.1) % 4294967296,
   (st.2.2.1 + res.2.2.1) % 4294967296, (st.2.2.2 + res.2.2.2) % 4294967296)

/-- MD5 digest (16 bytes) of a byte list. -/
def md5 (msg : List Nat) : List Nat :=
  let st := (chunks64 (md5Pad msg)).foldl md5Chunk
    (0x67452301, 0xefcdab89, 0x98badcfe, 0x10325476)
  le4 st.1 ++ le4 st.2.1 ++ le4 st.2.2.1 ++ le4 st.2.2.2

/-- Lowercase hex string of a byte list. -/
def hexOfBytes (bs : List Nat) : String :=
  String.mk (bs.foldr (fun b acc => hexChar (b / 16 % 16) :: hexChar (b % 16) :: acc) [])

/-- `hashlib.md5(bs).hexdigest()`. -/
def md5Hexdigest (bs : List Nat) : String :=
  hexOfBytes (md5 bs)

/-! ## Constants (`const.py`) -/

def REMARK : String := "JL"

def API_PORT : Nat := 12348

def CMD_GET : Nat := 1

def CMD_SET : Nat := 3

/-! ## Signature (`api.py` `_create_signature`)

`sorted(args.items())` sorts the key/value tuples lexicographically; the
argument mapping is modelled as an association list of already-stringified
values in insertion order (the f-string `f'LBRACEkRBRACE:LBRACEvRBRACE'`
applies `str` to each value; values are compared only on equal keys, which a
`dict` never produces). -/

/-- Python tuple ordering on `(key, value)` string pairs. -/
def argLe (x y : String × String) : Prop :=
  x.1 < y.1 ∨ (x.1 = y.1 ∧ x.2 ≤ y.2)

instance : DecidableRel argLe := fun x y => by
  unfold argLe
  infer_instance

instance : IsTotal (String × String) argLe where
  total x y := by
    unfold argLe
    rcases lt_trichotomy x.1 y.1 with h | h | h
    · exact Or.inl (Or.inl h)
    · rcases le_total x.2 y.2 with h2 | h2
      · exact Or.inl (Or.inr ⟨h, h2⟩)
      · exact Or.inr (Or.inr ⟨h.symm, h2⟩)
    · exact Or.inr (Or.inl h)

instance : IsTrans (String × String) argLe where
  trans x y z hxy hyz := by
    unfold argLe at hxy hyz ⊢
    rcases hxy with h1 | ⟨h1, h1v⟩
    · rcases hyz with h2 | ⟨h2, h2v⟩
      · exact Or.inl (h1.trans h2)
      · exact Or.inl (h2 ▸ h1)
    · rcases hyz with h2 | ⟨h2, h2v⟩
      · exact Or.inl (h1 ▸ h2)
      · exact Or.inr ⟨h1.trans h2, h1v.trans h2v⟩

instance : IsAntisymm (String × String) argLe where
  antisymm x y hxy hyx := by
    unfold argLe at hxy hyx
    rcases hxy with h1 | ⟨h1, h1v⟩
    · rcases hyx with h2 | ⟨h2, h2v⟩
      · exact absurd (h1.trans h2) (lt_irrefl _)
      · exact absurd h1 (h2 ▸ lt_irrefl _)
    · rcases hyx with h2 | ⟨h2, h2v⟩
      · exact absurd h2 (h1 ▸ lt_irrefl _)
      · exact Prod.ext h1 (le_antisymm h1v h2v)

/-- `_create_signature(obj, args, ts)`: sort the argument pairs, join them as
`k:v` with commas, build the canonical string with the fixed `obj:`/`ts:`/
`model:`/`token:` prefixes, and return the lowercase hex MD5 of its UTF-8
encoding. -/
def create_signature (model token : String) (obj : String) (args : List (String × String))
    (ts : Nat) : String :=
  let sorted_args := List.insertionSort argLe args
  let args_string := String.intercalate "," (sorted_args.map (fun kv => kv.1 ++ ":" ++ kv.2))
  let base_string := "obj:" ++ obj ++ "," ++ args_string ++ ",ts:" ++ toString ts ++
    ",model:" ++ model ++ ",token:" ++ token
  md5Hexdigest (utf8Encode base_string)

/-- The canonical string whose MD5 is the signature. -/
def signatureBase (model token : String) (obj : String) (args : List (String × String))
    (ts : Nat) : String :=
  "obj:" ++ obj ++ "," ++
    String.intercalate ","
      ((List.insertionSort argLe args).map (fun kv => kv.1 ++ ":" ++ kv.2)) ++
    ",ts:" ++ toString ts ++ ",model:" ++ model ++ ",token:" ++ token

/-! ## Message construction (`api.py` `create_message`) -/

/-- Python `str()` of a JSON-shaped argument value, as interpolated into the
signature base string.  The client only ever passes strings and integers as
argument values; container values (which Python would `repr`) do not occur. -/
def pyStr : Json → String
  | .null => "None"
  | .bool true => "True"
  | .bool false => "False"
  | .num n => toString n
  | .str s => s
  | .arr l => json_dumps (.arr l)
  | .obj l => json_dumps (.obj l)

/-- Client state: the per-instance hub parameters and the sequence counter
(`self.sequence`, set to 1 in `__init__`). -/
structure ApiState where
  host : String
  model : String
  token : String
  sequence : Nat

/-- `LifeSmartAPI.__init__`: the sequence counter starts at 1. -/
def apiInit (host model token : String) : ApiState :=
  { host := host, model := model, token := token, sequence := 1 }

/-- Big-endian 2-byte encoding (`>H`). -/
def be2 (n : Nat) : List Nat :=
  [n / 256 % 256, n % 256]

/-- Big-endian 4-byte encoding (`>I`). -/
def be4 (n : Nat) : List Nat :=
  [n / 16777216 % 256, n / 65536 % 256, n / 256 % 256, n % 256]

/-- `struct.pack('>2sHHI', REMARK.encode(), 0, pkg_type, len(body_json))`:
2-byte magic tag, 2-byte zero, 2-byte command type, 4-byte body length. -/
def packHeader (pkgType bodyLen : Nat) : List Nat :=
  utf8Encode REMARK ++ be2 0 ++ be2 (pkgType % 65536) ++ be4 (bodyLen % 4294967296)

/-- The JSON body built by `create_message` (insertion order preserved). -/
def messageBody (st : ApiState) (obj : String) (args : List (String × Json)) (ts : Nat) :
    Json :=
  .obj [("sys", .obj [("ver", .num 1),
                      ("sign", .str (create_signature st.model st.token obj
                        (args.map (fun kv => (kv.1, pyStr kv.2))) ts)),
                      ("model", .str st.model),
                      ("ts", .num ts)]),
        ("id", .num st.sequence),
        ("obj", .str obj),
        ("args", .obj args)]

/-- `create_message`: build header + UTF-8 JSON body, and advance the sequence
counter by one.  The wall-clock timestamp `int(time.time())` is passed in. -/
def create_message (st : ApiState) (obj : String) (args : List (String × Json))
    (pkgType : Nat) (ts : Nat) : List Nat × ApiState :=
  let body := messageBody st obj args ts
  let body_json := utf8Encode (json_dumps body)
  (packHeader pkgType body_json.length ++ body_json,
   { st with sequence := st.sequence + 1 })

/-- The `id` field of a message body. -/
def bodyId (j : Json) : Option Json :=
  match j with
  | .obj fs => pyLookup fs "id"
  | _ => none

/-- One client call: object name, arguments, package type, timestamp. -/
structure Call where
  obj : String
  args : List (String × Json)
  pkgType : Nat
  ts : Nat

/-- The sequence of message bodies produced by successive `create_message`
calls on one client instance. -/
def emittedBodies : ApiState → List Call → List Json
  | _, [] => []
  | st, c :: cs =>
    messageBody st c.obj c.args c.ts ::
      emittedBodies (create_message st c.obj c.args c.pkgType c.ts).2 cs

/-! ## Response parsing (`api.py` `send_command` / `set_device_state`):
`json.loads(data[10:].decode('utf-8'))`. -/

/-- Parse a response datagram: skip the fixed 10-byte header, decode the rest
as UTF-8, parse it as JSON.  The two error cases model `UnicodeDecodeError`
and `json.JSONDecodeError` propagating out of `send_command`. -/
def parseResponse (data : List Nat) : Except String Json :=
  match utf8Decode (data.drop 10) with
  | none => .error "UnicodeDecodeError"
  | some s =>
    match json_loads s with
    | none => .error "JSONDecodeError"
    | some j => .ok j

/-! ## Connection pool (`api.py` `_init_connection_pool` / `_get_connection` /
`_return_connection`)

Sockets are modelled by numeric identifiers.  `Queue(maxsize=5)` is a FIFO
list (front = next to be dequeued); `put_nowait` appends at the back and
raises `Full` when 5 entries are held, in which case the socket is closed. -/

structure PoolState where
  pool : List Nat
  nextSock : Nat
  closed : List Nat

/-- `_init_connection_pool`: five sockets are created and enqueued. -/
def poolInit : PoolState :=
  { pool := [0, 1, 2, 3, 4], nextSock := 5, closed := [] }

/-- `_get_connection`: pop from the pool, or create a fresh socket when the
pool is empty. -/
def getConnection (st : PoolState) : Nat × PoolState :=
  match st.pool with
  | c :: rest => (c, { st with pool := rest })
  | [] => (st.nextSock, { st with pool := [], nextSock := st.nextSock + 1 })

/-- `_return_connection`: enqueue unless the pool already holds 5 sockets, in
which case the returned socket is closed. -/
def returnConnection (st : PoolState) (sock : Nat) : PoolState :=
  if st.pool.length < 5 then { st with pool := st.pool ++ [sock] }
  else { st with closed := sock :: st.closed }

inductive PoolOp where
  | acquire : PoolOp
  | release (sock : Nat) : PoolOp

/-- Run any interleaving of acquire/release operations. -/
def runPool : PoolState → List PoolOp → PoolState
  | st, [] => st
  | st, .acquire :: ops => runPool (getConnection st).2 ops
  | st, .release s :: ops => runPool (returnConnection st s) ops

/-! ## Python dictionary / iteration semantics helpers -/

mutual

/-- Python `==` on JSON values. -/
def jsonBeq : Json → Json → Bool
  | .null, .null => true
  | .bool a, .bool b => a == b
  | .num a, .num b => a == b
  | .str a, .str b => a == b
  | .arr a, .arr b => jsonBeqL a b
  | .obj a, .obj b => jsonBeqF a b
  | _, _ => false

def jsonBeqL : List Json → List Json → Bool
  | [], [] => true
  | a :: as2, b :: bs2 => jsonBeq a b && jsonBeqL as2 bs2
  | _, _ => false

def jsonBeqF : List (String × Json) → List (String × Json) → Bool
  | [], [] => true
  | a :: as2, b :: bs2 => (a.1 == b.1 && jsonBeq a.2 b.2) && jsonBeqF as2 bs2
  | _, _ => false

end

/-- Python `for x in j`: lists yield elements, dicts yield their keys, strings
yield one-character strings; other values raise `TypeError`. -/
def pyIter (j : Json) : Except String (List Json) :=
  match j with
  | .arr l => .ok l
  | .obj fs => .ok (fs.map (fun kv => .str kv.1))
  | .str s => .ok (s.data.map (fun c => .str (String.mk [c])))
  | _ => .error "TypeError: object is not iterable"

/-- Python `k in j` for a string `k`: key membership for dicts, element
equality for lists, substring test for strings; `TypeError` otherwise. -/
def pyContainsKey (j : Json) (k : String) : Except String Bool :=
  match j with
  | .obj fs => .ok (pyLookup fs k).isSome
  | .arr l => .ok (l.any (fun x => match x with | .str s => s == k | _ => false))
  | .str s => .ok ((s.splitOn k).length > 1)
  | _ => .error "TypeError: argument is not iterable"

/-- Python `j[k]` for a string key. -/
def pyGetItem (j : Json) (k : String) : Except String Json :=
  match j with
  | .obj fs =>
    match pyLookup fs k with
    | some v => .ok v
    | none => .error "KeyError"
  | _ => .error "TypeError: object is not subscriptable"

/-- Python `x == 0` on an optional JSON value (`.get(...) == 0`); `0` equals
both the number 0 and `False`. -/
def pyEqZero : Option Json → Bool
  | some (.num n) => n == 0
  | some (.bool b) => !b
  | _ => false

/-- Python dict insertion with arbitrary (JSON-valued) keys: overwrite in
place when the key is present, append otherwise. -/
def pyDictInsert (d : List (Json × Json)) (k v : Json) : List (Json × Json) :=
  if d.any (fun kv => jsonBeq kv.1 k) then
    d.map (fun kv => if jsonBeq kv.1 k then (kv.1, v) else kv)
  else d ++ [(k, v)]

/-- Lookup in a JSON-keyed dict. -/
def pyDictLookup (d : List (Json × Json)) (k : Json) : Option Json :=
  match d with
  | [] => none
  | kv :: rest => if jsonBeq kv.1 k then some kv.2 else pyDictLookup rest k

/-! ## State cache and `set_device_state` (`api.py`)

`__init__` creates `_state_cache = TTLCache(maxsize=100, ttl=2)`.
`set_device_state` computes `hashkey(device_id, state['idx'], state['type'],
state['val'])`, returns the cached response when the key is present, and
otherwise sends the command and returns the parsed response.  The transport is
modelled as an oracle indexed by how many requests have been issued so far.
Nothing in the source ever writes into `_state_cache`, which the model
transcribes faithfully: the cache component of the state is left unchanged on
every path.  (Because no entry is ever inserted, TTL expiry never has anything
to expire and is not modelled.) -/

structure StateEnv where
  cache : List ((String × String × Int × Int) × Json)
  requests : Nat

def stateEnvInit : StateEnv :=
  { cache := [], requests := 0 }

/-- `set_device_state(device_id, state)` with `state = {idx, type, val}`;
returns the response and the updated client state. -/
def set_device_state (transport : Nat → Json) (env : StateEnv) (device_id : String)
    (idx : String) (ty : Int) (valArg : Int) : Json × StateEnv :=
  let cache_key := (device_id, idx, ty, valArg)
  match env.cache.lookup cache_key with
  | some cached => (cached, env)
  | none =>
    let response := transport env.requests
    (response, { env with requests := env.requests + 1 })

/-! ## Polling refresh with retry (`coordinator.py` `_async_update_data`)

`for attempt in range(3)` around `asyncio.wait_for(self.api.get_devices(),
timeout)`: on `asyncio.TimeoutError` the last attempt (`attempt == 2`) raises
`UpdateFailed`, earlier attempts `await asyncio.sleep(1)` and retry; any other
exception raises `UpdateFailed` immediately.  The outcome of each attempt is
an oracle; the function returns the result together with the list of sleep
delays (in seconds) performed between attempts. -/

inductive FetchOutcome where
  | timeout : FetchOutcome
  | failure (e : String) : FetchOutcome
  | success (devices : List (Json × Json)) : FetchOutcome

/-- `formatted_data = {"msg": [...]}` keeping only dict-shaped device records. -/
def formatDevices (devices : List (Json × Json)) : Json :=
  .obj [("msg", .arr (devices.filterMap (fun kv =>
    match kv.2 with
    | .obj fs => some (Json.obj fs)
    | _ => none)))]

def updateFrom (outs : Nat → FetchOutcome) : Nat → Nat → Except String Json × List Nat
  | 0, _ => (.error "unreachable: range(3) always ends at attempt 2", [])
  | remaining + 1, attempt =>
    match outs attempt with
    | .success devices => (.ok (formatDevices devices), [])
    | .failure e => (.error ("Error communicating with API: " ++ e), [])
    | .timeout =>
      if attempt == 2 then (.error "Error communicating with API: timed out", [])
      else
        let r := updateFrom outs remaining (attempt + 1)
        (r.1, 1 :: r.2)

/-- `_async_update_data`: three attempts starting at attempt 0. -/
def updateData (outs : Nat → FetchOutcome) : Except String Json × List Nat :=
  updateFrom outs 3 0

/-! ## State-update listener (`api.py` `get_state_updates`)

The whole body is wrapped in `try/except Exception`, which logs and falls
through to `return None`; the embedding is a total function into `Option`. -/

structure StateUpdate where
  me : Option Json
  idx : Option Json
  val : Option Json
  type : Option Json

/-- Process one received datagram exactly as `get_state_updates` does. -/
def get_state_updates (data : List Nat) : Option StateUpdate :=
  if 10 < data.length then
    match utf8Decode (data.drop 10) with
    | none => none
    | some s =>
      match json_loads s with
      | none => none
      | some message =>
        match message with
        | .obj fields =>
          match pyLookup fields "msg" with
          | some (.obj mf) =>
            match pyLookup mf "data" with
            | some (.obj dfs) =>
              some { me := pyLookup mf "me"
                   , idx := pyLookup mf "idx"
                   , val := match pyLookup dfs "v" with
                       | some v => some v
                       | none => pyLookup mf "val"
                   , type := pyLookup mf "type" }
            | none =>
              some { me := pyLookup mf "me"
                   , idx := pyLookup mf "idx"
                   , val := pyLookup mf "val"
                   , type := pyLookup mf "type" }
            | some _ => none
          | some _ => none
          | none => none
        | _ => none
  else none

/-! ## IR remote sending (`api.py` `send_remote_key`,
`remote.py` `async_send_command`)

`send_remote_key` is a plain `send_command` with no error handling: a UDP
receive timeout propagates to its caller.  The remote entity's
`async_send_command` wraps each send in `try/except Exception`, logging and
continuing.  The transport oracle maps `(remote_id, key)` to `some response`
or `none` (= `socket.timeout` raised). -/

def send_remote_key (transport : Option Json) : Except String Json :=
  match transport with
  | some resp => .ok resp
  | none => .error "socket.timeout"

/-- Python `cmd.split("::")`: split at each non-overlapping occurrence of
`::`, scanning left to right. -/
def splitOnColons : List Char → List (List Char)
  | [] => [[]]
  | ':' :: ':' :: rest => [] :: splitOnColons rest
  | c :: rest =>
    match splitOnColons rest with
    | [] => [[c]]
    | part :: parts => (c :: part) :: parts

def pySplitCmd (cmd : String) : List String :=
  (splitOnColons cmd.data).map String.mk

/-- Handle one command string of `async_send_command`; returns `ok (some m)`
when an error was logged (and swallowed), `ok none` when nothing was logged,
and `error` only for exceptions raised outside the `try` (the tuple-unpacking
`ValueError` on a command with more than one `::`). -/
def handleCommand (trans : String → String → Option Json)
    (remoteDetails : List (String × List String)) (allKeys : List (String × String))
    (cmd : String) : Except String (Option String) :=
  if (pySplitCmd cmd).length > 1 then
    match pySplitCmd cmd with
    | [remote_id, key] =>
      match remoteDetails.lookup remote_id with
      | some keys =>
        if key ∈ keys then
          match send_remote_key (trans remote_id key) with
          | .ok _ => .ok none
          | .error e => .ok (some ("Error sending command " ++ key ++ " to remote " ++
              remote_id ++ ": " ++ e))
        else .ok none
      | none => .ok none
    | _ => .error "ValueError: unpacking cmd.split"
  else
    match allKeys.lookup cmd with
    | some remote_id =>
      match send_remote_key (trans remote_id cmd) with
      | .ok _ => .ok none
      | .error e => .ok (some ("Error sending command " ++ cmd ++ " to remote " ++
          remote_id ++ ": " ++ e))
    | none => .ok none

/-- `async_send_command(commands)`: process every command in order; transport
failures are logged and never propagated. -/
def async_send_command (trans : String → String → Option Json)
    (remoteDetails : List (String × List String)) (allKeys : List (String × String)) :
    List String → Except String (List String)
  | [] => .ok []
  | cmd :: cmds =>
    match handleCommand trans remoteDetails allKeys cmd with
    | .error e => .error e
    | .ok log1 =>
      match async_send_command trans remoteDetails allKeys cmds with
      | .error e => .error e
      | .ok logs =>
        .ok (match log1 with
          | some m => m :: logs
          | none => logs)

/-! ## IR remote listing (`api.py` `get_remote_list`)

The `getlist` response and each per-remote `getkeys` response come from the
hub; they are passed in as the parsed list response and an oracle keyed by the
remote id value. -/

/-- The fan-out loop of `get_remote_list`: for each remote with an `"id"`,
fetch its keys and keep `{"remote": remote, "keys": keys["msg"]}` when the
keys response is truthy with code 0 and a `"msg"`. -/
def remoteLoop (keysOf : Json → Json) : List Json → Except String (List Json)
  | [] => .ok []
  | remote :: rs =>
    match pyContainsKey remote "id" with
    | .error e => .error e
    | .ok false => remoteLoop keysOf rs
    | .ok true =>
      match pyGetItem remote "id" with
      | .error e => .error e
      | .ok idv =>
        let keys := keysOf idv
        if pyTruthy keys then
          match keys with
          | .obj kfs =>
            if pyEqZero (pyLookup kfs "code") then
              match pyLookup kfs "msg" with
              | some keysMsg =>
                match remoteLoop keysOf rs with
                | .error e => .error e
                | .ok acc => .ok (Json.obj [("remote", remote), ("keys", keysMsg)] :: acc)
              | none => remoteLoop keysOf rs
            else remoteLoop keysOf rs
          | _ => .error "AttributeError: get"
        else remoteLoop keysOf rs

/-- `get_remote_list`: on a truthy dict response with `code == 0` and a
`"msg"`, fan out and return the collected pairs; otherwise return the raw
response. -/
def get_remote_list (resp : Json) (keysOf : Json → Json) : Except String Json :=
  if pyTruthy resp then
    match resp with
    | .obj fs =>
      if pyEqZero (pyLookup fs "code") then
        match pyLookup fs "msg" with
        | some msgv =>
          match pyIter msgv with
          | .error e => .error e
          | .ok items =>
            match remoteLoop keysOf items with
            | .error e => .error e
            | .ok allPairs => .ok (.arr allPairs)
        | none => .ok resp
      else .ok resp
    | _ => .error "AttributeError: get"
  else .ok resp

/-! ## Device discovery dictionary (`api.py` `get_devices`) -/

/-- The dict comprehension `{device["me"]: device for device in msg}`,
inserting left to right. -/
def devLoop : List (Json × Json) → List Json → Except String (List (Json × Json))
  | acc, [] => .ok acc
  | acc, d :: ds =>
    match pyGetItem d "me" with
    | .error e => .error e
    | .ok me => devLoop (pyDictInsert acc me d) ds

/-- `get_devices`: when the discovery response is a dict containing `"msg"`,
map each device's `"me"` to the device record; otherwise return `{}`. -/
def get_devices (resp : Json) : Except String (List (Json × Json)) :=
  match resp with
  | .obj fs =>
    match pyLookup fs "msg" with
    | some msgv =>
      match pyIter msgv with
      | .error e => .error e
      | .ok items => devLoop [] items
    | none => .ok []
  | _ => .ok []

/-! ## Claim theorems -/

/-- Claim C1: `_create_signature` returns the lowercase hexadecimal MD5 digest
of the canonical string `obj:<object>,<k1:v1,...,kn:vn>,ts:<ts>,model:<model>,
token:<token>` with the argument pairs sorted ascending, and the signature is
invariant under reordering of the argument pairs: two argument mappings with
the same key-value pairs in different insertion orders yield equal
signatures. -/
theorem c1_signature_canonical_and_order_invariant
    (model token obj : String) (ts : Nat) (args1 args2 : List (String × String))
    (hperm : args1.Perm args2) :
    create_signature model token obj args1 ts =
      md5Hexdigest (utf8Encode (signatureBase model token obj args1 ts)) ∧
    create_signature model token obj args1 ts =
      create_signature model token obj args2 ts := by
  constructor
  · rfl
  · unfold create_signature
    have hsort : List.insertionSort argLe args1 = List.insertionSort argLe args2 :=
      List.eq_of_perm_of_sorted
        ((List.perm_insertionSort argLe args1).trans
          (hperm.trans (List.perm_insertionSort argLe args2).symm))
        (List.sorted_insertionSort argLe args1)
        (List.sorted_insertionSort argLe args2)
    rw [hsort]

/-- Witness for C1 at the spec's example `sign(LBRACEa:1,b:2RBRACE) ==
sign(LBRACEb:2,a:1RBRACE)`. -/
theorem c1_witness :
    ([(("b" : String), ("2" : String)), (("a" : String), ("1" : String))] :
        List (String × String)).Perm [("a", "1"), ("b", "2")] ∧
    create_signature "OD_ALI_TECH" "token1" "ep" [("b", "2"), ("a", "1")] 1700000000 =
      create_signature "OD_ALI_TECH" "token1" "ep" [("a", "1"), ("b", "2")] 1700000000 :=
  ⟨by decide,
   (c1_signature_canonical_and_order_invariant "OD_ALI_TECH" "token1" "ep" 1700000000
     [("b", "2"), ("a", "1")] [("a", "1"), ("b", "2")] (by decide)).2⟩

theorem emittedBodies_ids (calls : List Call) :
    ∀ st : ApiState, (emittedBodies st calls).map bodyId =
      (List.range' st.sequence calls.length).map (fun i => some (Json.num (i : Int))) := by
  induction calls with
  | nil => intro st; rfl
  | cons c cs ih =>
    intro st
    have hbody : bodyId (messageBody st c.obj c.args c.ts) = some (.num st.sequence) := rfl
    have hnext : (create_message st c.obj c.args c.pkgType c.ts).2 =
        { st with sequence := st.sequence + 1 } := rfl
    simp only [emittedBodies, List.map_cons, hbody, hnext, List.length_cons,
      List.range'_succ]
    rw [ih { st with sequence := st.sequence + 1 }]
    rfl

/-- Claim C4: within one client instance (sequence counter initialized to 1 in
`__init__`), the `id` field placed in the body of each constructed message is
1 for the first `create_message` call and increases by exactly 1 per call, so
the ids emitted by any run are `1, 2, 3, ...` — a strictly increasing
sequence. -/
theorem c4_sequence_ids (host model token : String) (calls : List Call) :
    (emittedBodies (apiInit host model token) calls).map bodyId =
      (List.range' 1 calls.length).map (fun i => some (Json.num (i : Int))) ∧
    (List.range' 1 calls.length).Pairwise (· < ·) := by
  constructor
  · exact emittedBodies_ids calls (apiInit host model token)
  · exact List.pairwise_lt_range' 1 calls.length

/-- Claim C5: response parsing drops the fixed 10-byte header and parses the
remainder as UTF-8 JSON.  (1) Round trip: for every JSON value `j` and every
10-byte header, parsing `header ++ utf8(json.dumps(j))` returns exactly `j`.
(2) A datagram of at most 10 bytes (header shorter than 10, or empty body)
fails with a decode error rather than returning a value.  (3) A remainder
that is not valid UTF-8 fails.  (4) A remainder that is not valid JSON
fails. -/
theorem c5_parse_roundtrip_and_errors :
    (∀ (header : List Nat) (j : Json), header.length = 10 →
      parseResponse (header ++ utf8Encode (json_dumps j)) = .ok j) ∧
    (∀ data : List Nat, data.length ≤ 10 → parseResponse data = .error "JSONDecodeError") ∧
    (∀ data : List Nat, utf8Decode (data.drop 10) = none →
      parseResponse data = .error "UnicodeDecodeError") ∧
    (∀ (data : List Nat) (s : String), utf8Decode (data.drop 10) = some s →
      json_loads s = none → parseResponse data = .error "JSONDecodeError") := by
  refine ⟨?_, ?_, ?_, ?_⟩
  · intro header j hlen
    unfold parseResponse
    rw [show (header ++ utf8Encode (json_dumps j)).drop 10 = utf8Encode (json_dumps j) from
      by rw [← hlen, List.drop_left]]
    rw [utf8Decode_encode]
    simp only [json_loads_dumps]
  · intro data hlen
    unfold parseResponse
    rw [List.drop_eq_nil_of_le hlen]
    rfl
  · intro data hdec
    unfold parseResponse
    rw [hdec]
  · intro data s hdec hload
    unfold parseResponse
    rw [hdec]
    simp only []
    rw [hload]

/-- Witness for C5: a concrete 10-byte header and the body
`{"code": 0, "msg": []}` parse back to the original value, and a 3-byte
datagram fails. -/
theorem c5_witness :
    (List.replicate 10 0 : List Nat).length = 10 ∧
    parseResponse (List.replicate 10 0 ++
        utf8Encode (json_dumps (.obj [("code", .num 0), ("msg", .arr [])]))) =
      .ok (.obj [("code", .num 0), ("msg", .arr [])]) ∧
    ([1, 2, 3] : List Nat).length ≤ 10 ∧
    parseResponse [1, 2, 3] = .error "JSONDecodeError" :=
  ⟨rfl,
   c5_parse_roundtrip_and_errors.1 (List.replicate 10 0)
     (.obj [("code", .num 0), ("msg", .arr [])]) rfl,
   by decide,
   c5_parse_roundtrip_and_errors.2.1 [1, 2, 3] (by decide)⟩

theorem runPool_bounded (ops : List PoolOp) :
    ∀ st : PoolState, st.pool.length ≤ 5 → (runPool st ops).pool.length ≤ 5 := by
  induction ops with
  | nil => intro st h; exact h
  | cons op ops ih =>
    intro st h
    cases op with
    | acquire =>
      show (runPool (getConnection st).2 ops).pool.length ≤ 5
      apply ih
      unfold getConnection
      rcases hp : st.pool with _ | ⟨c, rest⟩
      · simp [hp]
      · simp only []
        rw [hp] at h
        simp at h ⊢
        omega
    | release s =>
      show (runPool (returnConnection st s) ops).pool.length ≤ 5
      apply ih
      unfold returnConnection
      split
      · simp
        omega
      · simpa using h

/-- Claim C6: the pool never retains more than its fixed capacity of 5 idle
connections after any interleaving of acquire/release operations from the
initial state; a release into a non-full pool retains the connection (it joins
the idle pool, available to subsequent acquires, and is handed out by the very
next acquire when the pool was empty); a release into a full pool closes the
connection instead of retaining it; and an acquire from a non-empty pool hands
out the connection at the front of the pool. -/
theorem c6_pool_capacity_and_reuse :
    (∀ ops : List PoolOp, (runPool poolInit ops).pool.length ≤ 5) ∧
    (∀ (st : PoolState) (sock : Nat), st.pool.length < 5 →
      (returnConnection st sock).pool = st.pool ++ [sock] ∧
      sock ∈ (returnConnection st sock).pool) ∧
    (∀ (st : PoolState) (sock : Nat), ¬st.pool.length < 5 →
      (returnConnection st sock).pool = st.pool ∧
      sock ∈ (returnConnection st sock).closed) ∧
    (∀ (st : PoolState) (sock : Nat), st.pool = [] →
      (getConnection (returnConnection st sock)).1 = sock) ∧
    (∀ (st : PoolState) (c : Nat) (rest : List Nat), st.pool = c :: rest →
      (getConnection st).1 = c ∧ (getConnection st).1 ∈ st.pool) := by
  refine ⟨?_, ?_, ?_, ?_, ?_⟩
  · intro ops
    exact runPool_bounded ops poolInit (by simp [poolInit])
  · intro st sock h
    unfold returnConnection
    rw [if_pos h]
    exact ⟨rfl, by simp⟩
  · intro st sock h
    unfold returnConnection
    rw [if_neg h]
    exact ⟨rfl, by simp⟩
  · intro st sock h
    unfold returnConnection getConnection
    rw [if_pos (by rw [h]; simp)]
    rw [h]
    rfl
  · intro st c rest h
    unfold getConnection
    rw [h]
    simp

/-- Witness for C6 at concrete states: releasing socket 9 into a pool holding
one connection retains it, and a burst of acquires and releases keeps the pool
within capacity. -/
theorem c6_witness :
    (PoolState.mk [3] 6 []).pool.length < 5 ∧
    (returnConnection (PoolState.mk [3] 6 []) 9).pool = [3] ++ [9] ∧
    (PoolState.mk [] 6 []).pool = [] ∧
    (getConnection (returnConnection (PoolState.mk [] 6 []) 9)).1 = 9 ∧
    (runPool poolInit [.release 7, .release 8, .acquire, .release 9]).pool.length ≤ 5 :=
  ⟨by decide,
   (c6_pool_capacity_and_reuse.2.1 (PoolState.mk [3] 6 []) 9 (by decide)).1,
   rfl,
   c6_pool_capacity_and_reuse.2.2.2.1 (PoolState.mk [] 6 []) 9 rfl,
   c6_pool_capacity_and_reuse.1 [.release 7, .release 8, .acquire, .release 9]⟩

/-- Claim C2 (code bug): `set_device_state` never stores any response into
`_state_cache` — no assignment to the cache exists anywhere in the source — so
a second call within 2 seconds with identical arguments misses the cache and
issues a second transport request, returning the fresh (here: different)
response; the cache is still empty after both calls.  Evaluated at the spec's
own scenario `("dev1", idx "L1", type 0x81, val 1)` called twice from a fresh
client with a transport that numbers its responses. -/
theorem c2_cache_never_populated :
    (set_device_state (fun n => Json.num (n : Int)) stateEnvInit "dev1" "L1" 129 1).1 =
      Json.num 0 ∧
    (set_device_state (fun n => Json.num (n : Int))
        (set_device_state (fun n => Json.num (n : Int)) stateEnvInit "dev1" "L1" 129 1).2
        "dev1" "L1" 129 1).1 = Json.num 1 ∧
    Json.num 0 ≠ Json.num 1 ∧
    (set_device_state (fun n => Json.num (n : Int))
        (set_device_state (fun n => Json.num (n : Int)) stateEnvInit "dev1" "L1" 129 1).2
        "dev1" "L1" 129 1).2.requests = 2 ∧
    (set_device_state (fun n => Json.num (n : Int))
        (set_device_state (fun n => Json.num (n : Int)) stateEnvInit "dev1" "L1" 129 1).2
        "dev1" "L1" 129 1).2.cache = [] := by
  refine ⟨rfl, rfl, ?_, rfl, rfl⟩
  intro h
  have : (0 : Int) = 1 := Json.num.inj h
  exact absurd this (by decide)

/-- Claim C3 (counterexample): in the polling refresh (`_async_update_data`),
when the first two attempts time out and the third succeeds, the inter-attempt
delays are `[1, 1]` seconds — constant, not exponential: there is no base
delay `b > 0` with delays `b * 2^0, b * 2^1`.  Moreover a malformed-response
failure (`json.JSONDecodeError` from the transport) on the first attempt is
surfaced immediately with no retry and no delay. -/
theorem c3_counterexample :
    (updateData (fun n => if n < 2 then .timeout else .success [])).2 = [1, 1] ∧
    ¬(∃ base : Nat, 0 < base ∧
        (updateData (fun n => if n < 2 then .timeout else .success [])).2 =
          [base * 2 ^ 0, base * 2 ^ 1]) ∧
    (updateData (fun _ => .failure "Expecting value: line 1 column 1 (char 0)")).2 = [] ∧
    (updateData (fun _ => .failure "Expecting value: line 1 column 1 (char 0)")).1 =
      .error "Error communicating with API: Expecting value: line 1 column 1 (char 0)" := by
  refine ⟨rfl, ?_, rfl, rfl⟩
  rintro ⟨b, hb, heq⟩
  rw [show (updateData (fun n => if n < 2 then FetchOutcome.timeout else .success [])).2 =
    [1, 1] from rfl] at heq
  simp only [List.cons.injEq, and_true] at heq
  omega

/-- Claim C3 (amended): the polling refresh retries only on timeout, up to 3
attempts with a constant 1-second sleep between attempts; when the first two
attempts time out and the third succeeds, the caller receives the successful
formatted response with no visible error after delays `[1, 1]`; when all three
attempts time out, the final timeout is surfaced as `UpdateFailed`; any other
failure (connection error, malformed/undecodable response) is surfaced
immediately without retrying; and a first-attempt success performs no sleep at
all.  (Exponential backoff `2 * 2^attempt` exists only in
`LifeSmartAPIManager._retry_operation`, which wraps initialization and
cleanup, not the network calls.) -/
theorem c3_amended (outs : Nat → FetchOutcome) :
    (∀ d, outs 0 = .timeout → outs 1 = .timeout → outs 2 = .success d →
      updateData outs = (.ok (formatDevices d), [1, 1])) ∧
    (outs 0 = .timeout → outs 1 = .timeout → outs 2 = .timeout →
      updateData outs = (.error "Error communicating with API: timed out", [1, 1])) ∧
    (∀ e, outs 0 = .failure e →
      updateData outs = (.error ("Error communicating with API: " ++ e), [])) ∧
    (∀ d, outs 0 = .success d → updateData outs = (.ok (formatDevices d), [])) := by
  refine ⟨?_, ?_, ?_, ?_⟩
  · intro d h0 h1 h2
    simp [updateData, updateFrom, h0, h1, h2]
  · intro h0 h1 h2
    simp [updateData, updateFrom, h0, h1, h2]
  · intro e h0
    simp [updateData, updateFrom, h0]
  · intro d h0
    simp [updateData, updateFrom, h0]

/-- Witness for C3 (amended) at a concrete outcome sequence: two timeouts then
a successful fetch of one device. -/
theorem c3_witness :
    ((fun n => if n < 2 then FetchOutcome.timeout else
        .success [(Json.str "d1", Json.obj [("me", Json.str "d1")])]) 0 =
      FetchOutcome.timeout) ∧
    updateData (fun n => if n < 2 then FetchOutcome.timeout else
        .success [(Json.str "d1", Json.obj [("me", Json.str "d1")])]) =
      (.ok (formatDevices [(Json.str "d1", Json.obj [("me", Json.str "d1")])]), [1, 1]) :=
  ⟨rfl,
   (c3_amended (fun n => if n < 2 then FetchOutcome.timeout else
       .success [(Json.str "d1", Json.obj [("me", Json.str "d1")])])).1
     [(Json.str "d1", Json.obj [("me", Json.str "d1")])] rfl rfl rfl⟩

/-- Claim C7: the state-update listener strips the fixed header, parses the
JSON, and when a `msg` dictionary is present returns the normalized event
`{me: msg.me, idx: msg.idx, val: msg.data.v if present else msg.val,
type: msg.type}`; a datagram that is too short, not UTF-8, not JSON, or
without a `msg` dictionary yields `None`.  The embedding is a total function
into `Option`, so no input can crash the listener. -/
theorem c7_listener_normalization :
    (∀ (data : List Nat) (fields mf dfs : List (String × Json)) (s : String),
      10 < data.length →
      utf8Decode (data.drop 10) = some s →
      json_loads s = some (.obj fields) →
      pyLookup fields "msg" = some (.obj mf) →
      pyLookup mf "data" = some (.obj dfs) →
      get_state_updates data = some
        { me := pyLookup mf "me", idx := pyLookup mf "idx",
          val := match pyLookup dfs "v" with
            | some v => some v
            | none => pyLookup mf "val",
          type := pyLookup mf "type" }) ∧
    (∀ (data : List Nat) (fields mf : List (String × Json)) (s : String),
      10 < data.length →
      utf8Decode (data.drop 10) = some s →
      json_loads s = some (.obj fields) →
      pyLookup fields "msg" = some (.obj mf) →
      pyLookup mf "data" = none →
      get_state_updates data = some
        { me := pyLookup mf "me", idx := pyLookup mf "idx",
          val := pyLookup mf "val", type := pyLookup mf "type" }) ∧
    (∀ data : List Nat, data.length ≤ 10 → get_state_updates data = none) ∧
    (∀ data : List Nat, 10 < data.length → utf8Decode (data.drop 10) = none →
      get_state_updates data = none) ∧
    (∀ (data : List Nat) (s : String), 10 < data.length →
      utf8Decode (data.drop 10) = some s → json_loads s = none →
      get_state_updates data = none) ∧
    (∀ (data : List Nat) (fields : List (String × Json)) (s : String),
      10 < data.length →
      utf8Decode (data.drop 10) = some s →
      json_loads s = some (.obj fields) →
      pyLookup fields "msg" = none →
      get_state_updates data = none) ∧
    (∀ (data : List Nat) (j : Json) (s : String),
      10 < data.length →
      utf8Decode (data.drop 10) = some s →
      json_loads s = some j →
      (∀ gs : List (String × Json), j ≠ .obj gs) →
      get_state_updates data = none) := by
  refine ⟨?_, ?_, ?_, ?_, ?_, ?_, ?_⟩
  · intro data fields mf dfs s hlen hdec hload hmsg hdata
    unfold get_state_updates
    rw [if_pos hlen, hdec]
    simp only []
    rw [hload]
    simp only []
    rw [hmsg]
    simp only []
    rw [hdata]
  · intro data fields mf s hlen hdec hload hmsg hdata
    unfold get_state_updates
    rw [if_pos hlen, hdec]
    simp only []
    rw [hload]
    simp only []
    rw [hmsg]
    simp only []
    rw [hdata]
  · intro data hlen
    unfold get_state_updates
    rw [if_neg (by omega)]
  · intro data hlen hdec
    unfold get_state_updates
    rw [if_pos hlen, hdec]
  · intro data s hlen hdec hload
    unfold get_state_updates
    rw [if_pos hlen, hdec]
    simp only []
    rw [hload]
  · intro data fields s hlen hdec hload hmsg
    unfold get_state_updates
    rw [if_pos hlen, hdec]
    simp only []
    rw [hload]
    simp only []
    rw [hmsg]
  · intro data j s hlen hdec hload hobj
    unfold get_state_updates
    rw [if_pos hlen, hdec]
    simp only []
    rw [hload]
    cases j with
    | obj gs => exact absurd rfl (hobj gs)
    | null => rfl
    | bool b => rfl
    | num n => rfl
    | str s2 => rfl
    | arr l => rfl

/-- Witness for C7: a concrete datagram with a 10-byte header and body
`{"msg": {"me": "d1", "idx": "L1", "val": 1, "type": 129}}` is normalized into
the expected event, and the 3-byte datagram `[1, 2, 3]` is dropped. -/
theorem c7_witness :
    (10 : Nat) < (List.replicate 10 0 ++
        utf8Encode "\x7b\"msg\": \x7b\"me\": \"d1\", \"idx\": \"L1\", \"val\": 1, \"type\": 129\x7d\x7d").length ∧
    get_state_updates (List.replicate 10 0 ++
        utf8Encode "\x7b\"msg\": \x7b\"me\": \"d1\", \"idx\": \"L1\", \"val\": 1, \"type\": 129\x7d\x7d") =
      some { me := some (.str "d1"), idx := some (.str "L1"),
             val := some (.num 1), type := some (.num 129) } ∧
    get_state_updates [1, 2, 3] = none := by
  refine ⟨by decide, ?_, c7_listener_normalization.2.2.1 [1, 2, 3] (by decide)⟩
  have h := c7_listener_normalization.2.1 (List.replicate 10 0 ++
      utf8Encode "\x7b\"msg\": \x7b\"me\": \"d1\", \"idx\": \"L1\", \"val\": 1, \"type\": 129\x7d\x7d")
    [("msg", .obj [("me", .str "d1"), ("idx", .str "L1"), ("val", .num 1), ("type", .num 129)])]
    [("me", .str "d1"), ("idx", .str "L1"), ("val", .num 1), ("type", .num 129)]
    "\x7b\"msg\": \x7b\"me\": \"d1\", \"idx\": \"L1\", \"val\": 1, \"type\": 129\x7d\x7d"
    (by decide) (by rw [List.drop_left' (by decide)]; exact utf8Decode_encode _)
    rfl rfl rfl
  exact h

theorem handleCommand_ok (trans : String → String → Option Json)
    (remoteDetails : List (String × List String)) (allKeys : List (String × String))
    (cmd : String) (h : (pySplitCmd cmd).length ≤ 2) :
    ∃ r, handleCommand trans remoteDetails allKeys cmd = .ok r := by
  unfold handleCommand
  by_cases hlen : (pySplitCmd cmd).length > 1
  · rw [if_pos hlen]
    rcases hsp : pySplitCmd cmd with _ | ⟨a, _ | ⟨b, _ | ⟨x, xs⟩⟩⟩ <;>
      rw [hsp] at hlen h <;> try simp at hlen h
    simp only []
    cases hl : List.lookup a remoteDetails with
    | none => exact ⟨none, rfl⟩
    | some keys =>
      simp only []
      by_cases hk : b ∈ keys
      · rw [if_pos hk]
        cases hs : send_remote_key (trans a b) with
        | ok v => exact ⟨none, rfl⟩
        | error e => exact ⟨some _, rfl⟩
      · rw [if_neg hk]
        exact ⟨none, rfl⟩
  · rw [if_neg hlen]
    cases hl : List.lookup cmd allKeys with
    | none => exact ⟨none, rfl⟩
    | some rid =>
      simp only []
      cases hs : send_remote_key (trans rid cmd) with
      | ok v => exact ⟨none, rfl⟩
      | error e => exact ⟨some _, rfl⟩

/-- Claim C8: an IR send against a non-responsive hub degrades gracefully.
The API-level `send_remote_key` does raise the receive timeout, but the remote
entity's `async_send_command` — the caller through which every IR send flows —
wraps each send in `try/except`, logging and continuing, so no failure is ever
surfaced to its caller, for every transport behavior (including one that
always times out) and every well-formed command list. -/
theorem c8_fire_and_forget (trans : String → String → Option Json)
    (remoteDetails : List (String × List String)) (allKeys : List (String × String))
    (cmds : List String)
    (hcmds : ∀ cmd ∈ cmds, (pySplitCmd cmd).length ≤ 2) :
    (∃ logs, async_send_command trans remoteDetails allKeys cmds = .ok logs) ∧
    send_remote_key none = .error "socket.timeout" := by
  refine ⟨?_, rfl⟩
  induction cmds with
  | nil => exact ⟨[], rfl⟩
  | cons cmd cmds ih =>
    obtain ⟨logs, hlogs⟩ := ih (fun c hc => hcmds c (by simp [hc]))
    obtain ⟨r, hr⟩ := handleCommand_ok trans remoteDetails allKeys cmd
      (hcmds cmd (by simp))
    cases r with
    | none =>
      refine ⟨logs, ?_⟩
      simp only [async_send_command]
      rw [hr]
      simp only []
      rw [hlogs]
    | some m =>
      refine ⟨m :: logs, ?_⟩
      simp only [async_send_command]
      rw [hr]
      simp only []
      rw [hlogs]

/-- Witness for C8: two commands (one `remote::key` form, one plain) against a
hub that always times out are processed without any surfaced failure. -/
theorem c8_witness :
    (∀ cmd ∈ (["r1::power", "volup"] : List String), (pySplitCmd cmd).length ≤ 2) ∧
    (∃ logs, async_send_command (fun _ _ => none) [("r1", ["power"])] [("volup", "r1")]
      ["r1::power", "volup"] = .ok logs) :=
  ⟨by decide,
   (c8_fire_and_forget (fun _ _ => none) [("r1", ["power"])] [("volup", "r1")]
     ["r1::power", "volup"] (by decide)).1⟩

/-- The fan-out result `get_remote_list` is specified to produce: one
`{"remote": r, "keys": keys.msg}` pair per remote with an id whose key-list
response is truthy with code 0 and a `msg`, in list order. -/
def remotePairsSpec (keysOf : Json → Json) (remotes : List Json) : List Json :=
  remotes.filterMap (fun remote =>
    match remote with
    | .obj rf =>
      match pyLookup rf "id" with
      | some idv =>
        match keysOf idv with
        | .obj kfs =>
          if pyTruthy (.obj kfs) && pyEqZero (pyLookup kfs "code") then
            match pyLookup kfs "msg" with
            | some keysMsg => some (.obj [("remote", .obj rf), ("keys", keysMsg)])
            | none => none
          else none
        | _ => none
      | none => none
    | _ => none)

theorem remoteLoop_spec (keysOf : Json → Json) (remotes : List Json)
    (hremotes : ∀ r ∈ remotes, ∃ rf, r = .obj rf)
    (hkeys : ∀ idv : Json, ∃ kfs, keysOf idv = .obj kfs) :
    remoteLoop keysOf remotes = .ok (remotePairsSpec keysOf remotes) := by
  induction remotes with
  | nil => rfl
  | cons r rs ih =>
    have ihrs := ih (fun x hx => hremotes x (by simp [hx]))
    obtain ⟨rf, rfl⟩ := hremotes r (by simp)
    unfold remoteLoop
    simp only [pyContainsKey]
    cases hid : pyLookup rf "id" with
    | none =>
      simp only [Option.isSome_none]
      rw [ihrs]
      simp only [remotePairsSpec, List.filterMap_cons, hid]
    | some idv =>
      simp only [Option.isSome_some]
      simp only [pyGetItem]
      rw [hid]
      simp only []
      obtain ⟨kfs, hk⟩ := hkeys idv
      rw [hk]
      by_cases ht : pyTruthy (.obj kfs) = true
      · rw [if_pos ht]
        simp only []
        by_cases hz : pyEqZero (pyLookup kfs "code") = true
        · rw [if_pos hz]
          cases hm : pyLookup kfs "msg" with
          | none =>
            rw [ihrs]
            simp only [remotePairsSpec, List.filterMap_cons, hid, hk, hm, ht, hz,
              Bool.and_self, if_true]
          | some keysMsg =>
            rw [ihrs]
            simp only [remotePairsSpec, List.filterMap_cons, hid, hk, hm, ht, hz,
              Bool.and_self, if_true]
        · rw [if_neg hz]
          rw [ihrs]
          have hz2 : pyEqZero (pyLookup kfs "code") = false := by
            cases h2 : pyEqZero (pyLookup kfs "code")
            · rfl
            · exact absurd h2 hz
          simp only [remotePairsSpec, List.filterMap_cons, hid, hk, hz2, Bool.and_false,
            Bool.false_eq_true, if_false]
      · have ht2 : pyTruthy (.obj kfs) = false := by
          cases h2 : pyTruthy (.obj kfs)
          · rfl
          · exact absurd h2 ht
        rw [if_neg ht]
        rw [ihrs]
        simp only [remotePairsSpec, List.filterMap_cons, hid, hk, ht2, Bool.false_and,
          Bool.false_eq_true, if_false]

/-- Claim C9: given a successful list response (a dict with `code = 0` and a
`msg` array of remote records) and dict-shaped key-list responses,
`get_remote_list` fans out one `get_remote_keys` call per remote id and
returns exactly the `{remote, keys}` pairs of the remotes whose key-list call
succeeded (truthy, code 0, with a `msg`), in list order; an empty remote list
yields the empty sequence, not an error; and never more pairs than
remotes. -/
theorem c9_remote_list_fanout
    (fs : List (String × Json)) (remotes : List Json) (keysOf : Json → Json)
    (hcode : pyLookup fs "code" = some (.num 0))
    (hmsg : pyLookup fs "msg" = some (.arr remotes))
    (hremotes : ∀ r ∈ remotes, ∃ rf, r = .obj rf)
    (hkeys : ∀ idv : Json, ∃ kfs, keysOf idv = .obj kfs) :
    get_remote_list (.obj fs) keysOf = .ok (.arr (remotePairsSpec keysOf remotes)) ∧
    (remotes = [] → get_remote_list (.obj fs) keysOf = .ok (.arr [])) ∧
    (remotePairsSpec keysOf remotes).length ≤ remotes.length := by
  have hne : fs ≠ [] := by
    intro h
    rw [h] at hcode
    exact absurd hcode (by simp [pyLookup])
  have htr : pyTruthy (.obj fs) = true := by
    unfold pyTruthy
    rcases fs with _ | ⟨kv, rest⟩
    · exact absurd rfl hne
    · simp
  have hmain : get_remote_list (.obj fs) keysOf = .ok (.arr (remotePairsSpec keysOf remotes)) := by
    unfold get_remote_list
    rw [if_pos htr]
    simp only []
    rw [if_pos (show pyEqZero (pyLookup fs "code") = true from by rw [hcode]; rfl)]
    rw [hmsg]
    simp only [pyIter]
    rw [remoteLoop_spec keysOf remotes hremotes hkeys]
  refine ⟨hmain, ?_, ?_⟩
  · intro h
    rw [h] at hmain
    exact hmain
  · exact List.length_filterMap_le _ _

/-- Witness for C9: a response listing two remotes, where the key-list call
succeeds for `r1` and fails (`code = 1`) for `r2`, produces exactly the one
`{remote, keys}` pair for `r1`; and the empty remote list gives `[]`. -/
theorem c9_witness :
    get_remote_list
        (.obj [("code", .num 0), ("msg", .arr [.obj [("id", .str "r1")], .obj [("id", .str "r2")]])])
        (fun idv => if jsonBeq idv (.str "r1") then
            .obj [("code", .num 0), ("msg", .arr [.str "power"])]
          else .obj [("code", .num 1)]) =
      .ok (.arr (remotePairsSpec
        (fun idv => if jsonBeq idv (.str "r1") then
            .obj [("code", .num 0), ("msg", .arr [.str "power"])]
          else .obj [("code", .num 1)])
        [.obj [("id", .str "r1")], .obj [("id", .str "r2")]])) ∧
    get_remote_list (.obj [("code", .num 0), ("msg", .arr [])]) (fun _ => .obj [("code", .num 1)]) =
      .ok (.arr []) := by
  constructor
  · exact (c9_remote_list_fanout
      [("code", .num 0), ("msg", .arr [.obj [("id", .str "r1")], .obj [("id", .str "r2")]])]
      [.obj [("id", .str "r1")], .obj [("id", .str "r2")]]
      _ rfl rfl
      (by
        intro r hr
        rcases List.mem_cons.mp hr with rfl | hr2
        · exact ⟨_, rfl⟩
        · rcases List.mem_singleton.mp hr2 with rfl
          exact ⟨_, rfl⟩)
      (by
        intro idv
        by_cases h : jsonBeq idv (.str "r1") = true
        · exact ⟨_, by rw [if_pos h]⟩
        · exact ⟨_, by rw [if_neg h]⟩)).1
  · exact ((c9_remote_list_fanout [("code", .num 0), ("msg", .arr [])] []
      (fun _ => .obj [("code", .num 1)]) rfl rfl (by intro r hr; exact absurd hr (by simp))
      (fun _ => ⟨_, rfl⟩)).2.1) rfl

theorem jsonBeq_str (a b : String) : jsonBeq (.str a) (.str b) = (a == b) := by
  rw [jsonBeq]

theorem devLoop_spec (devs : List (List (String × Json) × String)) :
    ∀ acc : List (Json × Json),
      (∀ d ∈ devs, pyLookup d.1 "me" = some (.str d.2)) →
      (devs.map (fun d => d.2)).Nodup →
      (∀ d ∈ devs, acc.any (fun kv => jsonBeq kv.1 (.str d.2)) = false) →
      devLoop acc (devs.map (fun d => Json.obj d.1)) =
        .ok (acc ++ devs.map (fun d => (Json.str d.2, Json.obj d.1))) := by
  induction devs with
  | nil => intro acc _ _ _; simp [devLoop]
  | cons d ds ih =>
    intro acc hme hnodup hdisj
    have hnodup2 : (d.2 :: ds.map (fun y => y.2)).Nodup := by
      rw [List.map_cons] at hnodup
      exact hnodup
    have hnotin : d.2 ∉ ds.map (fun y => y.2) := (List.nodup_cons.mp hnodup2).1
    have hnd : (ds.map (fun y => y.2)).Nodup := (List.nodup_cons.mp hnodup2).2
    simp only [List.map_cons, devLoop, pyGetItem]
    rw [hme d (by simp)]
    simp only []
    have hins : pyDictInsert acc (.str d.2) (.obj d.1) = acc ++ [(.str d.2, .obj d.1)] := by
      unfold pyDictInsert
      rw [if_neg (by rw [hdisj d (by simp)]; simp)]
    rw [hins]
    have hstep := ih (acc ++ [((Json.str d.2 : Json), (Json.obj d.1 : Json))])
      (fun x hx => hme x (by simp [hx]))
      hnd
      (by
        intro x hx
        rw [List.any_append]
        have h1 : acc.any (fun kv => jsonBeq kv.1 (.str x.2)) = false :=
          hdisj x (by simp [hx])
        have h2 : (([((Json.str d.2 : Json), (Json.obj d.1 : Json))] : List (Json × Json)).any
            (fun kv => jsonBeq kv.1 (.str x.2))) = false := by
          simp only [List.any_cons, List.any_nil, Bool.or_false]
          rw [jsonBeq_str]
          have hne : d.2 ≠ x.2 := by
            intro he
            exact hnotin (he ▸ List.mem_map_of_mem (fun y => y.2) hx)
          simp [hne]
        rw [h1, h2]
        rfl)
    rw [hstep]
    simp

/-- Claim C10: `get_devices` on a discovery response that is a dict with a
`msg` list of device records (each with a string `me` id, pairwise distinct)
returns the dictionary mapping each device's `me` to its full record; on a
response of any other shape — not a dict, or lacking `msg` — it returns the
empty dictionary rather than raising. -/
theorem c10_get_devices
    (fs : List (String × Json)) (devs : List (List (String × Json) × String))
    (hmsg : pyLookup fs "msg" = some (.arr (devs.map (fun d => Json.obj d.1))))
    (hme : ∀ d ∈ devs, pyLookup d.1 "me" = some (.str d.2))
    (hnodup : (devs.map (fun d => d.2)).Nodup) :
    get_devices (.obj fs) = .ok (devs.map (fun d => (Json.str d.2, Json.obj d.1))) ∧
    (∀ j : Json, (∀ gs : List (String × Json), j ≠ .obj gs) → get_devices j = .ok []) ∧
    (∀ gs : List (String × Json), pyLookup gs "msg" = none → get_devices (.obj gs) = .ok []) := by
  refine ⟨?_, ?_, ?_⟩
  · unfold get_devices
    simp only []
    rw [hmsg]
    simp only [pyIter]
    rw [devLoop_spec devs [] hme hnodup (by intro d _; rfl)]
    rfl
  · intro j hobj
    cases j with
    | obj gs => exact absurd rfl (hobj gs)
    | null => rfl
    | bool b => rfl
    | num n => rfl
    | str s => rfl
    | arr l => rfl
  · intro gs h
    unfold get_devices
    simp only []
    rw [h]

/-- Witness for C10: a discovery response with two devices produces the map
from each `me` to its record; a list-shaped response gives `{}`; a dict
without `msg` gives `{}`. -/
theorem c10_witness :
    get_devices (.obj [("code", .num 0),
        ("msg", .arr [.obj [("me", .str "d1"), ("devtype", .str "SL_SW")],
                      .obj [("me", .str "d2"), ("val", .num 3)]])]) =
      .ok [(.str "d1", .obj [("me", .str "d1"), ("devtype", .str "SL_SW")]),
           (.str "d2", .obj [("me", .str "d2"), ("val", .num 3)])] ∧
    get_devices (.arr [.num 1]) = .ok [] ∧
    get_devices (.obj [("code", .num 0)]) = .ok [] := by
  have h := c10_get_devices [("code", .num 0),
      ("msg", .arr [.obj [("me", .str "d1"), ("devtype", .str "SL_SW")],
                    .obj [("me", .str "d2"), ("val", .num 3)]])]
    [([("me", .str "d1"), ("devtype", .str "SL_SW")], "d1"),
     ([("me", .str "d2"), ("val", .num 3)], "d2")]
    rfl
    (by
      intro d hd
      rcases List.mem_cons.mp hd with rfl | hd2
      · rfl
      · rcases List.mem_singleton.mp hd2 with rfl
        rfl)
    (by decide)
  exact ⟨h.1, h.2.1 (.arr [.num 1]) (by intro gs hgs; exact absurd hgs (by simp)),
    h.2.2 [("code", .num 0)] rfl⟩

end LifeSmart
